import Mathlib

/-!
Login strategies of `bot_login.go`

A shallow embedding of the three login strategies (`SacnLogin`, `HotLogin`,
`PushLogin`) and of the two copies of the long-polling loop.

The code is stateful and talks to collaborators that live outside the file
(the RPC caller, the post-login initializer, the caller-supplied hooks).  The
embedding passes an explicit `World` around:

* `World.bot` holds the fields of `*Bot` the strategies read or write;
* `World.polls` is the script of answers `bot.Caller.CheckLogin` will give,
  one per call, in order;
* `World.trace` is the chronological log of every call made on a collaborator
  and every hook invocation.

The polling loop `for { ... }` has no bound of its own.  It is embedded by
structural recursion on the script: each iteration consumes one answer, and a
run whose script holds no answer for the call it has just issued ends in
`Outcome.blocked` (the Go code would still be waiting inside `CheckLogin`).
-/

set_option autoImplicit false

namespace OpenWechat

/-- Modelled from the spec: the `LoginCode` type and its four constants
`StatusSuccess`, `StatusScanned`, `StatusTimeout`, `StatusWait` are declared
outside `bot_login.go`.  The spec names the vocabulary {Waiting, Scanned,
Success, Timeout}; a response can still carry any other value, kept here as
`other`.  The four constants are pairwise distinct (they label the cases of
one `switch`). -/
inductive LoginCode where
  | StatusSuccess
  | StatusScanned
  | StatusTimeout
  | StatusWait
  | other (code : String)
  deriving DecidableEq, Repr

/-- Modelled from the spec: Go `error` values.  The sentinel `ErrLoginTimeout`
(the spec's `LoginTimeout` failure, returned by the polling loop on
`StatusTimeout`) is declared outside `bot_login.go`; every other error is
carried by its message. -/
inductive Error where
  | ErrLoginTimeout
  | other (msg : String)
  deriving DecidableEq, Repr

/-- Raw payload of a poll response (`resp.Raw`, a byte slice). -/
abbrev Raw := List Nat

/-- The response of `bot.Caller.CheckLogin`: the fields the loop reads. -/
structure CheckLoginResponse where
  Code : LoginCode
  Raw : Raw
  deriving DecidableEq, Repr

/-- The pair `(resp, err)` returned by one `bot.Caller.CheckLogin` call. -/
inductive CheckLoginResult where
  | ok (resp : CheckLoginResponse)
  | error (err : Error)
  deriving DecidableEq, Repr

/-- The pair `(uuid, err)` returned by `bot.Caller.GetLoginUUID`. -/
inductive UUIDResult where
  | ok (uuid : String)
  | error (err : Error)
  deriving DecidableEq, Repr

/-- The response of `bot.Caller.WebWxPushLogin`: `Err` is what `resp.Err()`
returns, `UUID` is `resp.UUID`. -/
structure PushLoginResponse where
  Err : Option Error
  UUID : String
  deriving DecidableEq, Repr

/-- The pair `(resp, err)` returned by `bot.Caller.WebWxPushLogin`. -/
inductive PushLoginResult where
  | ok (resp : PushLoginResponse)
  | error (err : Error)
  deriving DecidableEq, Repr

/-- A persisted-session storage handle (an interface value: `none` is nil). -/
abbrev HotReloadStorage := Option Nat

/-- One observable action of a login run. -/
inductive Event where
  | GetLoginUUID
  | CheckLogin (uuid : String) (tip : String)
  | HandleLogin (raw : Raw)
  | UUIDCallback (uuid : String)
  | ScanCallBack (raw : Raw)
  | LoginCallBack (raw : Raw)
  | reload (storage : HotReloadStorage)
  | WebInit
  | WebWxPushLogin (uin : Int)
  deriving DecidableEq, Repr

/-- The part of `bot.Caller` that does not depend on the poll script. -/
structure Caller where
  GetLoginUUID : UUIDResult
  WebWxPushLogin : Int → PushLoginResult

/-- The fields and methods of `*Bot` used by the login strategies.  A hook
field is `true` when the Go field is non-nil. -/
structure Bot where
  uuid : String
  hotReloadStorage : HotReloadStorage
  UUIDCallback : Bool
  ScanCallBack : Bool
  LoginCallBack : Bool
  Caller : Caller
  HandleLogin : Raw → Option Error
  WebInit : Option Error
  reload : HotReloadStorage → Option Error
  WxUin : Int

/-- The state threaded through a run. -/
structure World where
  bot : Bot
  polls : List CheckLoginResult
  trace : List Event

/-- What a call produced: the returned `error` (`none` is nil), or `blocked`
when the poll script ran out while the loop was waiting for an answer. -/
inductive Outcome where
  | blocked
  | returned (err : Option Error)
  deriving DecidableEq, Repr

/-- Append one event to the log. -/
def World.emit (w : World) (e : Event) : World :=
  { w with trace := w.trace ++ [e] }

/-- Record what is left of the poll script. -/
def World.setPolls (w : World) (ps : List CheckLoginResult) : World :=
  { w with polls := ps }

/-- The assignment `bot.uuid = uuid`. -/
def World.setUUID (w : World) (uuid : String) : World :=
  { w with bot := { w.bot with uuid := uuid } }

/-- The assignment `bot.hotReloadStorage = storage`. -/
def World.setStorage (w : World) (storage : HotReloadStorage) : World :=
  { w with bot := { w.bot with hotReloadStorage := storage } }

/-- The type `SacnLogin` is `struct{}`. -/
structure SacnLogin where
  deriving DecidableEq, Repr

/-- The `for` loop of `SacnLogin.checkLogin` (lines 27-53), run on the poll
script `ps`. -/
def SacnLogin.checkLoginLoop (uuid : String) : List CheckLoginResult → World → Outcome × World
  | [], w => (Outcome.blocked, (w.emit (Event.CheckLogin uuid "0")).setPolls [])
  | r :: rest, w =>
    let w1 := (w.emit (Event.CheckLogin uuid "0")).setPolls rest
    match r with
    | CheckLoginResult.error err => (Outcome.returned (some err), w1)
    | CheckLoginResult.ok resp =>
      match resp.Code with
      | LoginCode.StatusSuccess =>
        let w2 := w1.emit (Event.HandleLogin resp.Raw)
        match w2.bot.HandleLogin resp.Raw with
        | some err => (Outcome.returned (some err), w2)
        | none =>
          let w3 := if w2.bot.LoginCallBack then w2.emit (Event.LoginCallBack resp.Raw) else w2
          (Outcome.returned none, w3)
      | LoginCode.StatusScanned =>
        let w2 := if w1.bot.ScanCallBack then w1.emit (Event.ScanCallBack resp.Raw) else w1
        SacnLogin.checkLoginLoop uuid rest w2
      | LoginCode.StatusTimeout => (Outcome.returned (some Error.ErrLoginTimeout), w1)
      | LoginCode.StatusWait => SacnLogin.checkLoginLoop uuid rest w1
      | LoginCode.other _ => SacnLogin.checkLoginLoop uuid rest w1

/-- Embeds `func (s *SacnLogin) checkLogin(bot *Bot, uuid string) error`. -/
def SacnLogin.checkLogin (_s : SacnLogin) (uuid : String) (w : World) : Outcome × World :=
  let w1 := w.setUUID uuid
  let w2 := if w1.bot.UUIDCallback then w1.emit (Event.UUIDCallback uuid) else w1
  SacnLogin.checkLoginLoop uuid w2.polls w2

/-- Embeds `func (s *SacnLogin) Login(bot *Bot) error`. -/
def SacnLogin.Login (s : SacnLogin) (w : World) : Outcome × World :=
  let w1 := w.emit Event.GetLoginUUID
  match w1.bot.Caller.GetLoginUUID with
  | UUIDResult.error err => (Outcome.returned (some err), w1)
  | UUIDResult.ok uuid => s.checkLogin uuid w1

structure hotLoginOption where
  withRetry : Bool
  deriving DecidableEq, Repr

/-- A `HotLoginOptionFunc` is a function applied to the option record. -/
abbrev HotLoginOptionFunc := hotLoginOption → hotLoginOption

def HotLoginWithRetry (flag : Bool) : HotLoginOptionFunc :=
  fun o => { o with withRetry := flag }

structure HotLogin where
  storage : HotReloadStorage
  opt : hotLoginOption
  deriving DecidableEq, Repr

/-- Embeds `func (h *HotLogin) hotLoginInit(bot *Bot) error`. -/
def HotLogin.hotLoginInit (h : HotLogin) (w : World) : Option Error × World :=
  let w1 := w.setStorage h.storage
  let w2 := w1.emit (Event.reload w1.bot.hotReloadStorage)
  (w2.bot.reload w2.bot.hotReloadStorage, w2)

/-- Embeds `func (h *HotLogin) login(bot *Bot) error`. -/
def HotLogin.login (h : HotLogin) (w : World) : Option Error × World :=
  match h.hotLoginInit w with
  | (some err, w1) => (some err, w1)
  | (none, w1) =>
    let w2 := w1.emit Event.WebInit
    (w2.bot.WebInit, w2)

/-- Embeds `func (h *HotLogin) Login(bot *Bot) error`. -/
def HotLogin.Login (h : HotLogin) (w : World) : Outcome × World :=
  match h.login w with
  | (some err, w1) =>
    if h.opt.withRetry then
      let scanLogin : SacnLogin := {}
      scanLogin.Login w1
    else (Outcome.returned (some err), w1)
  | (none, w1) => (Outcome.returned none, w1)

structure pushLoginOption where
  withoutUUIDCallback : Bool
  withoutScanCallback : Bool
  withoutLoginCallback : Bool
  withRetry : Bool
  deriving DecidableEq, Repr

/-- A `PushLoginOptionFunc` is a function applied to the option record. -/
abbrev PushLoginOptionFunc := pushLoginOption → pushLoginOption

def PushLoginWithoutUUIDCallback (flag : Bool) : PushLoginOptionFunc :=
  fun o => { o with withoutUUIDCallback := flag }

def PushLoginWithoutScanCallback (flag : Bool) : PushLoginOptionFunc :=
  fun o => { o with withoutScanCallback := flag }

def PushLoginWithoutLoginCallback (flag : Bool) : PushLoginOptionFunc :=
  fun o => { o with withoutLoginCallback := flag }

def PushLoginWithRetry (flag : Bool) : PushLoginOptionFunc :=
  fun o => { o with withRetry := flag }

def defaultPushLoginOpts : List PushLoginOptionFunc :=
  [PushLoginWithoutUUIDCallback true, PushLoginWithoutScanCallback true]

structure PushLogin where
  storage : HotReloadStorage
  opt : pushLoginOption
  deriving DecidableEq, Repr

/-- Embeds `func (p PushLogin) pushLoginInit(bot *Bot) error`. -/
def PushLogin.pushLoginInit (p : PushLogin) (w : World) : Option Error × World :=
  let w1 := w.setStorage p.storage
  let w2 := w1.emit (Event.reload w1.bot.hotReloadStorage)
  (w2.bot.reload w2.bot.hotReloadStorage, w2)

/-- The `for` loop of `PushLogin.checkLogin` (lines 179-208), run on the poll
script; `tip` is the loop's mutable local. -/
def PushLogin.checkLoginLoop (p : PushLogin) (uuid : String) :
    List CheckLoginResult → String → World → Outcome × World
  | [], tip, w => (Outcome.blocked, (w.emit (Event.CheckLogin uuid tip)).setPolls [])
  | r :: rest, tip, w =>
    let w1 := (w.emit (Event.CheckLogin uuid tip)).setPolls rest
    match r with
    | CheckLoginResult.error err => (Outcome.returned (some err), w1)
    | CheckLoginResult.ok resp =>
      let tip1 := if tip = "1" then "0" else tip
      match resp.Code with
      | LoginCode.StatusSuccess =>
        let w2 := w1.emit (Event.HandleLogin resp.Raw)
        match w2.bot.HandleLogin resp.Raw with
        | some err => (Outcome.returned (some err), w2)
        | none =>
          let w3 := if w2.bot.LoginCallBack && !p.opt.withoutLoginCallback
            then w2.emit (Event.LoginCallBack resp.Raw) else w2
          (Outcome.returned none, w3)
      | LoginCode.StatusScanned =>
        let w2 := if w1.bot.ScanCallBack && !p.opt.withoutScanCallback
          then w1.emit (Event.ScanCallBack resp.Raw) else w1
        PushLogin.checkLoginLoop p uuid rest tip1 w2
      | LoginCode.StatusTimeout => (Outcome.returned (some Error.ErrLoginTimeout), w1)
      | LoginCode.StatusWait => PushLogin.checkLoginLoop p uuid rest tip1 w1
      | LoginCode.other _ => PushLogin.checkLoginLoop p uuid rest tip1 w1

/-- Embeds `func (p PushLogin) checkLogin(bot *Bot, uuid, tip string) error`. -/
def PushLogin.checkLogin (p : PushLogin) (uuid tip : String) (w : World) : Outcome × World :=
  let w1 := w.setUUID uuid
  let w2 := if w1.bot.UUIDCallback && !p.opt.withoutUUIDCallback
    then w1.emit (Event.UUIDCallback uuid) else w1
  p.checkLoginLoop uuid w2.polls tip w2

/-- Embeds `func (p PushLogin) Login(bot *Bot) error`. -/
def PushLogin.Login (p : PushLogin) (w : World) : Outcome × World :=
  match p.pushLoginInit w with
  | (some err, w1) => (Outcome.returned (some err), w1)
  | (none, w1) =>
    let w2 := w1.emit (Event.WebWxPushLogin w1.bot.WxUin)
    match w2.bot.Caller.WebWxPushLogin w2.bot.WxUin with
    | PushLoginResult.error err => (Outcome.returned (some err), w2)
    | PushLoginResult.ok resp =>
      match resp.Err with
      | some err => (Outcome.returned (some err), w2)
      | none =>
        match p.checkLogin resp.UUID "1" w2 with
        | (Outcome.returned (some err), w3) =>
          if p.opt.withRetry then
            let scanLogin : SacnLogin := {}
            scanLogin.Login w3
          else (Outcome.returned (some err), w3)
        | (out, w3) => (out, w3)

/-! ## Observers on scripts and traces -/

/-- A response on which the loop stops: a transport error, `StatusSuccess`
or `StatusTimeout`. -/
def CheckLoginResult.isTerminal : CheckLoginResult → Bool
  | CheckLoginResult.error _ => true
  | CheckLoginResult.ok resp =>
    match resp.Code with
    | LoginCode.StatusSuccess => true
    | LoginCode.StatusTimeout => true
    | _ => false

/-- A response carrying `StatusWait` or `StatusScanned`. -/
def CheckLoginResult.isWaitOrScanned : CheckLoginResult → Bool
  | CheckLoginResult.error _ => false
  | CheckLoginResult.ok resp =>
    match resp.Code with
    | LoginCode.StatusWait => true
    | LoginCode.StatusScanned => true
    | _ => false

/-- A response carrying `StatusScanned`. -/
def CheckLoginResult.isScanned : CheckLoginResult → Bool
  | CheckLoginResult.error _ => false
  | CheckLoginResult.ok resp =>
    match resp.Code with
    | LoginCode.StatusScanned => true
    | _ => false

/-- The payload of a `StatusScanned` response. -/
def CheckLoginResult.scannedRaw : CheckLoginResult → Option Raw
  | CheckLoginResult.error _ => none
  | CheckLoginResult.ok resp =>
    match resp.Code with
    | LoginCode.StatusScanned => some resp.Raw
    | _ => none

/-- The payloads of the `StatusScanned` responses of a script, in order. -/
def scannedRaws (ps : List CheckLoginResult) : List Raw :=
  ps.filterMap CheckLoginResult.scannedRaw

/-- The script with the `StatusScanned` responses that precede the first
`StatusSuccess`/`StatusTimeout` response deleted. -/
def dropScanned : List CheckLoginResult → List CheckLoginResult
  | [] => []
  | CheckLoginResult.error err :: rest => CheckLoginResult.error err :: dropScanned rest
  | CheckLoginResult.ok resp :: rest =>
    match resp.Code with
    | LoginCode.StatusScanned => dropScanned rest
    | LoginCode.StatusSuccess => CheckLoginResult.ok resp :: rest
    | LoginCode.StatusTimeout => CheckLoginResult.ok resp :: rest
    | _ => CheckLoginResult.ok resp :: dropScanned rest

/-- The argument of a `LoginCallBack` invocation. -/
def Event.loginCallBackArg : Event → Option Raw
  | Event.LoginCallBack raw => some raw
  | _ => none

/-- The argument of a `ScanCallBack` invocation. -/
def Event.scanCallBackArg : Event → Option Raw
  | Event.ScanCallBack raw => some raw
  | _ => none

/-- The argument of a `HandleLogin` call. -/
def Event.handleLoginArg : Event → Option Raw
  | Event.HandleLogin raw => some raw
  | _ => none

/-- The arguments `(uuid, tip)` of a `CheckLogin` call. -/
def Event.checkLoginArg : Event → Option (String × String)
  | Event.CheckLogin uuid tip => some (uuid, tip)
  | _ => none

/-- The `LoginCallBack` invocations of a trace, in order. -/
def loginCallBackArgs (t : List Event) : List Raw := t.filterMap Event.loginCallBackArg

/-- The `ScanCallBack` invocations of a trace, in order. -/
def scanCallBackArgs (t : List Event) : List Raw := t.filterMap Event.scanCallBackArg

/-- The `HandleLogin` calls of a trace, in order. -/
def handleLoginArgs (t : List Event) : List Raw := t.filterMap Event.handleLoginArg

/-- The `CheckLogin` calls of a trace, in order. -/
def checkLoginCalls (t : List Event) : List (String × String) := t.filterMap Event.checkLoginArg

/-- The tip the push loop sends after one answered call. -/
def nextTip (tip : String) : String := if tip = "1" then "0" else tip

/-- The tip the push loop holds after the answers `ps`. -/
def tipAfter (tip : String) : List CheckLoginResult → String
  | [] => tip
  | _ :: _ => nextTip tip

/-- The events of a run of non-terminal responses: one `CheckLogin` call per
response, followed by a `ScanCallBack` invocation when the response is
`StatusScanned` and the hook fires (`fires`). -/
def pendingEvents (fires : Bool) (uuid : String) : String → List CheckLoginResult → List Event
  | _, [] => []
  | tip, r :: rest =>
    Event.CheckLogin uuid tip ::
      ((match r.scannedRaw with
        | some raw => if fires then [Event.ScanCallBack raw] else []
        | none => []) ++ pendingEvents fires uuid (nextTip tip) rest)

/-- The world with the events `es` appended to its log. -/
def World.emitAll (w : World) (es : List Event) : World :=
  { w with trace := w.trace ++ es }

/-- The value returned by the iteration that receives a terminal response. -/
def terminalOutcome (bot : Bot) : CheckLoginResult → Outcome
  | CheckLoginResult.error err => Outcome.returned (some err)
  | CheckLoginResult.ok resp =>
    match resp.Code with
    | LoginCode.StatusSuccess => Outcome.returned (bot.HandleLogin resp.Raw)
    | LoginCode.StatusTimeout => Outcome.returned (some Error.ErrLoginTimeout)
    | _ => Outcome.blocked

/-- The events that follow the `CheckLogin` call in the iteration that
receives a terminal response; `fires` tells whether the success hook runs. -/
def terminalEvents (bot : Bot) (fires : Bool) : CheckLoginResult → List Event
  | CheckLoginResult.error _ => []
  | CheckLoginResult.ok resp =>
    match resp.Code with
    | LoginCode.StatusSuccess =>
      Event.HandleLogin resp.Raw ::
        (match bot.HandleLogin resp.Raw with
          | none => if fires then [Event.LoginCallBack resp.Raw] else []
          | some _ => [])
    | _ => []

/-- The events of `checkLogin` before its loop: the identifier hook. -/
def uuidEvents (fires : Bool) (uuid : String) : List Event :=
  if fires then [Event.UUIDCallback uuid] else []

/-- The world `w` seen from a run that attached `storage` and logged `t`
before reaching it. -/
def World.rebase (w : World) (storage : HotReloadStorage) (t : List Event) : World :=
  { bot := { w.bot with hotReloadStorage := storage }, polls := w.polls, trace := t ++ w.trace }

/-- The world `w` with an empty log. -/
def World.fresh (w : World) : World :=
  { w with trace := [] }

/-- The events a scan login can produce: the identifier request, the polls,
the initializer call and the three hooks. -/
def Event.isScanEvent : Event → Bool
  | Event.GetLoginUUID => true
  | Event.CheckLogin _ _ => true
  | Event.HandleLogin _ => true
  | Event.UUIDCallback _ => true
  | Event.ScanCallBack _ => true
  | Event.LoginCallBack _ => true
  | Event.reload _ => false
  | Event.WebInit => false
  | Event.WebWxPushLogin _ => false

/-- The argument of a `UUIDCallback` invocation. -/
def Event.uuidCallbackArg : Event → Option String
  | Event.UUIDCallback uuid => some uuid
  | _ => none

/-- The `UUIDCallback` invocations of a trace, in order. -/
def uuidCallbackArgs (t : List Event) : List String := t.filterMap Event.uuidCallbackArg

/-- The events a polling loop can produce: polls, the initializer call, and
the scan and success hooks. -/
def Event.isPollEvent : Event → Bool
  | Event.CheckLogin _ _ => true
  | Event.HandleLogin _ => true
  | Event.ScanCallBack _ => true
  | Event.LoginCallBack _ => true
  | _ => false

/-- The events of a polling loop on the script `ps`, from its first
`CheckLogin` call on: the non-terminal responses are run through, the first
terminal response ends the loop, and a script without one leaves a last,
unanswered call. -/
def loopEvents (bot : Bot) (scanFires loginFires : Bool) (uuid : String) :
    String → List CheckLoginResult → List Event
  | tip, [] => [Event.CheckLogin uuid tip]
  | tip, r :: rest =>
    if r.isTerminal then Event.CheckLogin uuid tip :: terminalEvents bot loginFires r
    else pendingEvents scanFires uuid tip [r] ++
      loopEvents bot scanFires loginFires uuid (nextTip tip) rest

/-- The value a polling loop returns on the script `ps`. -/
def loopOutcome (bot : Bot) : List CheckLoginResult → Outcome
  | [] => Outcome.blocked
  | r :: rest => if r.isTerminal then terminalOutcome bot r else loopOutcome bot rest

/-- The part of the script `ps` a polling loop leaves unread. -/
def loopRest : List CheckLoginResult → List CheckLoginResult
  | [] => []
  | r :: rest => if r.isTerminal then rest else loopRest rest

/-- The world in which the polling phase of `PushLogin.Login` starts: the
storage is attached, `reload` and `WebWxPushLogin` have been called. -/
def PushLogin.pollStart (p : PushLogin) (w : World) : World :=
  ((w.setStorage p.storage).emit (Event.reload p.storage)).emit
    (Event.WebWxPushLogin w.bot.WxUin)

/-- The zero value of `pushLoginOption`. -/
def zeroPushLoginOption : pushLoginOption :=
  { withoutUUIDCallback := false, withoutScanCallback := false,
    withoutLoginCallback := false, withRetry := false }

/-- Modelled from the spec: the constructor that applies the option functions
is outside `bot_login.go`; options are "applied by functional composition at
construction time", here one after the other, in order. -/
def applyPushLoginOpts (opts : List PushLoginOptionFunc) (o : pushLoginOption) :
    pushLoginOption :=
  opts.foldl (fun acc f => f acc) o

/-- The part of the script `ps` a polling loop reads: everything up to and
including the first terminal response. -/
def loopRead : List CheckLoginResult → List CheckLoginResult
  | [] => []
  | r :: rest => if r.isTerminal then [r] else r :: loopRead rest

/-! ## Concrete inputs -/

/-- A bot with every hook set, whose collaborators all succeed and hand out
the identifier `"scan-uuid"` (scan) and `"push-uuid"` (push). -/
def sampleBot : Bot where
  uuid := ""
  hotReloadStorage := none
  UUIDCallback := true
  ScanCallBack := true
  LoginCallBack := true
  Caller :=
    { GetLoginUUID := UUIDResult.ok "scan-uuid"
      WebWxPushLogin := fun _ => PushLoginResult.ok { Err := none, UUID := "push-uuid" } }
  HandleLogin := fun _ => none
  WebInit := none
  reload := fun _ => none
  WxUin := 7

/-- The world of `sampleBot` in front of the poll script `ps`, nothing logged. -/
def sampleWorld (ps : List CheckLoginResult) : World :=
  { bot := sampleBot, polls := ps, trace := [] }

/-- A poll answer carrying `code` and `raw`. -/
def answer (code : LoginCode) (raw : Raw) : CheckLoginResult :=
  CheckLoginResult.ok { Code := code, Raw := raw }

/-- A push strategy with no hook suppressed and no fallback. -/
def plainPush : PushLogin :=
  { storage := some 1
    opt := { withoutUUIDCallback := false, withoutScanCallback := false,
             withoutLoginCallback := false, withRetry := false } }

/-- The script `[Wait, Scanned]`: two non-terminal answers. -/
def waitScanned : List CheckLoginResult :=
  [answer LoginCode.StatusWait [1], answer LoginCode.StatusScanned [2]]

/-- A bot like `sampleBot` whose post-login initializer fails. -/
def failingInitBot : Bot :=
  { sampleBot with HandleLogin := fun _ => some (Error.other "init failed") }

/-- The script `[Waiting, Scanned, Waiting, Success]` with the payloads given. -/
def exampleScript (r1 r2 r3 r4 : Raw) : List CheckLoginResult :=
  [answer LoginCode.StatusWait r1, answer LoginCode.StatusScanned r2,
    answer LoginCode.StatusWait r3, answer LoginCode.StatusSuccess r4]

/-- A script whose first answer carries the unknown code `"999"` and whose
second answer is a success. -/
def unknownThenSuccess : List CheckLoginResult :=
  [answer (LoginCode.other "999") [1], answer LoginCode.StatusSuccess [2]]

/-- A bot like `sampleBot` whose session reload fails. -/
def brokenReloadBot : Bot :=
  { sampleBot with reload := fun _ => some (Error.other "reload failed") }

/-- A hot-resume strategy with fallback enabled. -/
def retryHot : HotLogin :=
  { storage := some 1, opt := { withRetry := true } }

/-- A push strategy with the default suppressions and fallback enabled. -/
def retryPush : PushLogin :=
  { storage := some 1
    opt := { withoutUUIDCallback := true, withoutScanCallback := true,
             withoutLoginCallback := false, withRetry := true } }

/-- The world of `brokenReloadBot` in front of `[Waiting, Scanned, Waiting,
Success]`. -/
def brokenReloadWorld : World :=
  { bot := brokenReloadBot, polls := exampleScript [1] [2] [3] [4], trace := [] }

/-- A world whose push request fails at the transport level; scan would work. -/
def pushTransportErrorWorld : World :=
  { bot := { sampleBot with
      Caller := { GetLoginUUID := UUIDResult.ok "scan-uuid"
                  WebWxPushLogin := fun _ => PushLoginResult.error (Error.other "network") } }
    polls := exampleScript [1] [2] [3] [4]
    trace := [] }

/-- A world whose push request is rejected by the server; scan would work. -/
def pushRejectedWorld : World :=
  { bot := { sampleBot with
      Caller := { GetLoginUUID := UUIDResult.ok "scan-uuid"
                  WebWxPushLogin := fun _ =>
                    PushLoginResult.ok { Err := some (Error.other "rejected"), UUID := "" } } }
    polls := exampleScript [1] [2] [3] [4]
    trace := [] }

/-- A hot-resume strategy without fallback. -/
def plainHot : HotLogin :=
  { storage := some 1, opt := { withRetry := false } }

/-- A world whose identifier request fails. -/
def noIdentifierWorld : World :=
  { bot := { sampleBot with
      uuid := "old"
      Caller := { GetLoginUUID := UUIDResult.error (Error.other "no uuid")
                  WebWxPushLogin := fun _ => PushLoginResult.error (Error.other "network") } }
    polls := exampleScript [1] [2] [3] [4]
    trace := [] }

/-- The push strategy built with the default options only. -/
def defaultPush : PushLogin :=
  { storage := some 1, opt := applyPushLoginOpts defaultPushLoginOpts zeroPushLoginOption }

/-- A world where the reload fails and the identifier request fails too. -/
def fallbackFailsWorld : World :=
  { bot := { brokenReloadBot with
      Caller := { GetLoginUUID := UUIDResult.error (Error.other "no uuid")
                  WebWxPushLogin := fun _ => PushLoginResult.error (Error.other "network") } }
    polls := exampleScript [1] [2] [3] [4]
    trace := [] }

/-- A world where the push polling times out and the identifier request of the
fallback fails. -/
def pushTimeoutNoScanWorld : World :=
  { bot := { sampleBot with
      Caller := { GetLoginUUID := UUIDResult.error (Error.other "no uuid")
                  WebWxPushLogin := fun _ =>
                    PushLoginResult.ok { Err := none, UUID := "push-uuid" } } }
    polls := [answer LoginCode.StatusTimeout [0]]
    trace := [] }

/-- A world whose initializer rejects the payload `[1]` and accepts every
other one, in front of two success answers. -/
def initFailsOnceWorld : World :=
  { bot := { sampleBot with
      HandleLogin := fun raw => if raw = [1] then some (Error.other "init failed") else none }
    polls := [answer LoginCode.StatusSuccess [1], answer LoginCode.StatusSuccess [2]]
    trace := [] }

/-- A push strategy with every hook suppressed and fallback enabled. -/
def silentRetryPush : PushLogin :=
  { storage := some 1
    opt := { withoutUUIDCallback := true, withoutScanCallback := true,
             withoutLoginCallback := true, withRetry := true } }

/-- The world of a bot like `sampleBot` with none of the three hooks set, in
front of `[Waiting, Scanned, Waiting, Success]`. -/
def hooklessWorld : World :=
  { bot := { sampleBot with UUIDCallback := false, ScanCallBack := false,
                            LoginCallBack := false }
    polls := exampleScript [1] [2] [3] [4]
    trace := [] }

/-! ## The loops on a run of non-terminal responses -/

theorem World.emitAll_nil (w : World) : w.emitAll [] = w := by
  simp [World.emitAll]

theorem World.emit_emitAll (w : World) (e : Event) (es : List Event) :
    (w.emit e).emitAll es = w.emitAll (e :: es) := by
  simp [World.emitAll, World.emit]

theorem World.emitAll_emit (w : World) (e : Event) (es : List Event) :
    (w.emitAll es).emit e = w.emitAll (es ++ [e]) := by
  simp [World.emitAll, World.emit]

theorem World.emitAll_emitAll (w : World) (es fs : List Event) :
    (w.emitAll es).emitAll fs = w.emitAll (es ++ fs) := by
  simp [World.emitAll]

theorem World.setPolls_emitAll (w : World) (ps : List CheckLoginResult) (es : List Event) :
    (w.setPolls ps).emitAll es = (w.emitAll es).setPolls ps := rfl

theorem nextTip_nextTip (tip : String) : nextTip (nextTip tip) = nextTip tip := by
  unfold nextTip
  by_cases h : tip = "1"
  · simp [h]
  · simp [h]

theorem nextTip_zero : nextTip "0" = "0" := by decide

theorem nextTip_one : nextTip "1" = "0" := by decide

theorem tipAfter_nextTip (tip : String) (ps : List CheckLoginResult) :
    tipAfter (nextTip tip) ps = nextTip tip := by
  cases ps with
  | nil => rfl
  | cons r rest => simp [tipAfter, nextTip_nextTip]

theorem scanLoop_setPolls (uuid : String) (ps x : List CheckLoginResult)
    (w : World) :
    SacnLogin.checkLoginLoop uuid ps (w.setPolls x) = SacnLogin.checkLoginLoop uuid ps w := by
  cases ps <;> rfl

theorem pushLoop_setPolls (p : PushLogin) (uuid tip : String)
    (ps x : List CheckLoginResult) (w : World) :
    p.checkLoginLoop uuid ps tip (w.setPolls x) = p.checkLoginLoop uuid ps tip w := by
  cases ps <;> rfl

theorem isTerminal_of_isWaitOrScanned (r : CheckLoginResult) (h : r.isWaitOrScanned = true) :
    r.isTerminal = false := by
  cases r with
  | error err => simp [CheckLoginResult.isWaitOrScanned] at h
  | ok resp =>
    obtain ⟨code, raw⟩ := resp
    cases code <;> simp [CheckLoginResult.isWaitOrScanned, CheckLoginResult.isTerminal] at h ⊢

/-- One iteration of the scan loop on a non-terminal response. -/
theorem scanLoop_step (uuid : String) (r : CheckLoginResult)
    (rest : List CheckLoginResult) (w : World) (h : r.isTerminal = false) :
    SacnLogin.checkLoginLoop uuid (r :: rest) w =
      SacnLogin.checkLoginLoop uuid rest
        (w.emitAll (pendingEvents w.bot.ScanCallBack uuid "0" [r])) := by
  cases r with
  | error err => simp [CheckLoginResult.isTerminal] at h
  | ok resp =>
    obtain ⟨code, raw⟩ := resp
    cases code with
    | StatusSuccess => simp [CheckLoginResult.isTerminal] at h
    | StatusTimeout => simp [CheckLoginResult.isTerminal] at h
    | StatusScanned =>
      rw [← scanLoop_setPolls uuid rest rest (w.emitAll _)]
      cases hs : w.bot.ScanCallBack <;>
        simp [SacnLogin.checkLoginLoop, pendingEvents, CheckLoginResult.scannedRaw,
          World.emitAll, World.emit, World.setPolls, hs]
    | StatusWait =>
      rw [← scanLoop_setPolls uuid rest rest (w.emitAll _)]
      simp [SacnLogin.checkLoginLoop, pendingEvents, CheckLoginResult.scannedRaw,
        World.emitAll, World.emit, World.setPolls]
    | other c =>
      rw [← scanLoop_setPolls uuid rest rest (w.emitAll _)]
      simp [SacnLogin.checkLoginLoop, pendingEvents, CheckLoginResult.scannedRaw,
        World.emitAll, World.emit, World.setPolls]

theorem pendingEvents_cons (fires : Bool) (uuid tip : String) (r : CheckLoginResult)
    (rest : List CheckLoginResult) :
    pendingEvents fires uuid tip (r :: rest) =
      pendingEvents fires uuid tip [r] ++ pendingEvents fires uuid (nextTip tip) rest := by
  simp [pendingEvents]

theorem pendingEvents_append (fires : Bool) (uuid : String) (pre rest : List CheckLoginResult) :
    ∀ tip : String, pendingEvents fires uuid tip (pre ++ rest) =
      pendingEvents fires uuid tip pre ++ pendingEvents fires uuid (tipAfter tip pre) rest := by
  induction pre with
  | nil => intro tip; simp [pendingEvents, tipAfter]
  | cons r pre ih =>
    intro tip
    rw [List.cons_append, pendingEvents_cons, ih, pendingEvents_cons fires uuid tip r pre,
      tipAfter_nextTip]
    simp [tipAfter]

/-- The scan loop runs through a block of non-terminal responses, logging
their events, and goes on with the rest of the script. -/
theorem scanLoop_pending (uuid : String) (pre rest : List CheckLoginResult) :
    ∀ w : World, (∀ r ∈ pre, r.isTerminal = false) →
      SacnLogin.checkLoginLoop uuid (pre ++ rest) w =
        SacnLogin.checkLoginLoop uuid rest
          (w.emitAll (pendingEvents w.bot.ScanCallBack uuid "0" pre)) := by
  induction pre with
  | nil => intro w _; simp [pendingEvents, World.emitAll_nil]
  | cons r pre ih =>
    intro w h
    have hr : r.isTerminal = false := h r (List.mem_cons_self _ _)
    have hpre : ∀ x ∈ pre, x.isTerminal = false := fun x hx => h x (List.mem_cons_of_mem _ hx)
    rw [List.cons_append, scanLoop_step uuid r _ w hr, ih _ hpre,
      World.emitAll_emitAll, pendingEvents_cons _ _ _ r pre, nextTip_zero]
    rfl

/-- One iteration of the push loop on a non-terminal response. -/
theorem pushLoop_step (p : PushLogin) (uuid tip : String) (r : CheckLoginResult)
    (rest : List CheckLoginResult) (w : World) (h : r.isTerminal = false) :
    p.checkLoginLoop uuid (r :: rest) tip w =
      p.checkLoginLoop uuid rest (nextTip tip)
        (w.emitAll (pendingEvents (w.bot.ScanCallBack && !p.opt.withoutScanCallback)
          uuid tip [r])) := by
  cases r with
  | error err => simp [CheckLoginResult.isTerminal] at h
  | ok resp =>
    obtain ⟨code, raw⟩ := resp
    cases code with
    | StatusSuccess => simp [CheckLoginResult.isTerminal] at h
    | StatusTimeout => simp [CheckLoginResult.isTerminal] at h
    | StatusScanned =>
      rw [← pushLoop_setPolls p uuid _ rest rest (w.emitAll _)]
      cases hs : (w.bot.ScanCallBack && !p.opt.withoutScanCallback) <;>
        simp [PushLogin.checkLoginLoop, pendingEvents, CheckLoginResult.scannedRaw,
          World.emitAll, World.emit, World.setPolls, hs, nextTip]
    | StatusWait =>
      rw [← pushLoop_setPolls p uuid _ rest rest (w.emitAll _)]
      simp [PushLogin.checkLoginLoop, pendingEvents, CheckLoginResult.scannedRaw,
        World.emitAll, World.emit, World.setPolls, nextTip]
    | other c =>
      rw [← pushLoop_setPolls p uuid _ rest rest (w.emitAll _)]
      simp [PushLogin.checkLoginLoop, pendingEvents, CheckLoginResult.scannedRaw,
        World.emitAll, World.emit, World.setPolls, nextTip]

/-- The push loop runs through a block of non-terminal responses, logging
their events, and goes on with the rest of the script and the updated tip. -/
theorem pushLoop_pending (p : PushLogin) (uuid : String)
    (pre rest : List CheckLoginResult) :
    ∀ (tip : String) (w : World), (∀ r ∈ pre, r.isTerminal = false) →
      p.checkLoginLoop uuid (pre ++ rest) tip w =
        p.checkLoginLoop uuid rest (tipAfter tip pre)
          (w.emitAll (pendingEvents (w.bot.ScanCallBack && !p.opt.withoutScanCallback)
            uuid tip pre)) := by
  induction pre with
  | nil => intro tip w _; simp [pendingEvents, World.emitAll_nil, tipAfter]
  | cons r pre ih =>
    intro tip w h
    have hr : r.isTerminal = false := h r (List.mem_cons_self _ _)
    have hpre : ∀ x ∈ pre, x.isTerminal = false := fun x hx => h x (List.mem_cons_of_mem _ hx)
    rw [List.cons_append, pushLoop_step p uuid tip r _ w hr, ih _ _ hpre,
      World.emitAll_emitAll, pendingEvents_cons _ _ _ r pre, tipAfter_nextTip]
    rfl

/-! ## The loops on a terminal response, and whole runs of `checkLogin` -/

theorem scanLoop_terminal (uuid : String) (t : CheckLoginResult)
    (rest : List CheckLoginResult) (w : World) (h : t.isTerminal = true) :
    SacnLogin.checkLoginLoop uuid (t :: rest) w =
      (terminalOutcome w.bot t,
        (w.emitAll (Event.CheckLogin uuid "0" :: terminalEvents w.bot w.bot.LoginCallBack t)).setPolls
          rest) := by
  cases t with
  | error err =>
    simp [SacnLogin.checkLoginLoop, terminalOutcome, terminalEvents, World.emitAll, World.emit,
      World.setPolls]
  | ok resp =>
    obtain ⟨code, raw⟩ := resp
    cases code with
    | StatusSuccess =>
      cases hh : w.bot.HandleLogin raw <;> cases hl : w.bot.LoginCallBack <;>
        simp [SacnLogin.checkLoginLoop, terminalOutcome, terminalEvents, World.emitAll,
          World.emit, World.setPolls, hh, hl]
    | StatusTimeout =>
      simp [SacnLogin.checkLoginLoop, terminalOutcome, terminalEvents, World.emitAll, World.emit,
        World.setPolls]
    | StatusScanned => simp [CheckLoginResult.isTerminal] at h
    | StatusWait => simp [CheckLoginResult.isTerminal] at h
    | other c => simp [CheckLoginResult.isTerminal] at h

theorem pushLoop_terminal (p : PushLogin) (uuid tip : String)
    (t : CheckLoginResult) (rest : List CheckLoginResult) (w : World)
    (h : t.isTerminal = true) :
    p.checkLoginLoop uuid (t :: rest) tip w =
      (terminalOutcome w.bot t,
        (w.emitAll (Event.CheckLogin uuid tip ::
          terminalEvents w.bot (w.bot.LoginCallBack && !p.opt.withoutLoginCallback) t)).setPolls
          rest) := by
  cases t with
  | error err =>
    simp [PushLogin.checkLoginLoop, terminalOutcome, terminalEvents, World.emitAll, World.emit,
      World.setPolls]
  | ok resp =>
    obtain ⟨code, raw⟩ := resp
    cases code with
    | StatusSuccess =>
      cases hh : w.bot.HandleLogin raw <;>
        cases hl : (w.bot.LoginCallBack && !p.opt.withoutLoginCallback) <;>
        simp [PushLogin.checkLoginLoop, terminalOutcome, terminalEvents, World.emitAll,
          World.emit, World.setPolls, hh, hl]
    | StatusTimeout =>
      simp [PushLogin.checkLoginLoop, terminalOutcome, terminalEvents, World.emitAll, World.emit,
        World.setPolls]
    | StatusScanned => simp [CheckLoginResult.isTerminal] at h
    | StatusWait => simp [CheckLoginResult.isTerminal] at h
    | other c => simp [CheckLoginResult.isTerminal] at h

/-- A whole run of `SacnLogin.checkLogin` on a script made of non-terminal
responses followed by a terminal one. -/
theorem scanCheckLogin_run (s : SacnLogin) (uuid : String) (w : World)
    (pre rest : List CheckLoginResult) (t : CheckLoginResult)
    (hpre : ∀ r ∈ pre, r.isTerminal = false) (ht : t.isTerminal = true)
    (hpolls : w.polls = pre ++ t :: rest) :
    s.checkLogin uuid w =
      (terminalOutcome w.bot t,
        (((w.setUUID uuid).emitAll
          (uuidEvents w.bot.UUIDCallback uuid ++
            (pendingEvents w.bot.ScanCallBack uuid "0" pre ++
              Event.CheckLogin uuid "0" :: terminalEvents w.bot w.bot.LoginCallBack t)))).setPolls
          rest) := by
  have h0 : s.checkLogin uuid w =
      SacnLogin.checkLoginLoop uuid w.polls
        ((w.setUUID uuid).emitAll (uuidEvents w.bot.UUIDCallback uuid)) := by
    cases hu : w.bot.UUIDCallback <;>
      simp [SacnLogin.checkLogin, uuidEvents, World.setUUID, World.emit, World.emitAll, hu]
  rw [h0, hpolls, scanLoop_pending uuid pre _ _ hpre,
    scanLoop_terminal uuid t rest _ ht]
  simp [World.emitAll, World.setUUID, World.setPolls, terminalOutcome]
  rfl

/-- A whole run of `PushLogin.checkLogin` on a script made of non-terminal
responses followed by a terminal one. -/
theorem pushCheckLogin_run (p : PushLogin) (uuid tip : String) (w : World)
    (pre rest : List CheckLoginResult) (t : CheckLoginResult)
    (hpre : ∀ r ∈ pre, r.isTerminal = false) (ht : t.isTerminal = true)
    (hpolls : w.polls = pre ++ t :: rest) :
    p.checkLogin uuid tip w =
      (terminalOutcome w.bot t,
        (((w.setUUID uuid).emitAll
          (uuidEvents (w.bot.UUIDCallback && !p.opt.withoutUUIDCallback) uuid ++
            (pendingEvents (w.bot.ScanCallBack && !p.opt.withoutScanCallback) uuid tip pre ++
              Event.CheckLogin uuid (tipAfter tip pre) ::
                terminalEvents w.bot (w.bot.LoginCallBack && !p.opt.withoutLoginCallback)
                  t)))).setPolls
          rest) := by
  have h0 : p.checkLogin uuid tip w =
      p.checkLoginLoop uuid w.polls tip
        ((w.setUUID uuid).emitAll
          (uuidEvents (w.bot.UUIDCallback && !p.opt.withoutUUIDCallback) uuid)) := by
    cases hu : (w.bot.UUIDCallback && !p.opt.withoutUUIDCallback) <;>
      simp [PushLogin.checkLogin, uuidEvents, World.setUUID, World.emit, World.emitAll, hu]
  rw [h0, hpolls, pushLoop_pending p uuid pre _ _ _ hpre,
    pushLoop_terminal p uuid _ t rest _ ht]
  simp [World.emitAll, World.setUUID, World.setPolls, terminalOutcome]
  rfl

/-! ## Observers on the events of a run -/

theorem loginCallBackArgs_append (a b : List Event) :
    loginCallBackArgs (a ++ b) = loginCallBackArgs a ++ loginCallBackArgs b := by
  simp [loginCallBackArgs]

theorem scanCallBackArgs_append (a b : List Event) :
    scanCallBackArgs (a ++ b) = scanCallBackArgs a ++ scanCallBackArgs b := by
  simp [scanCallBackArgs]

theorem handleLoginArgs_append (a b : List Event) :
    handleLoginArgs (a ++ b) = handleLoginArgs a ++ handleLoginArgs b := by
  simp [handleLoginArgs]

theorem checkLoginCalls_append (a b : List Event) :
    checkLoginCalls (a ++ b) = checkLoginCalls a ++ checkLoginCalls b := by
  simp [checkLoginCalls]

theorem loginCallBackArgs_uuidEvents (fires : Bool) (uuid : String) :
    loginCallBackArgs (uuidEvents fires uuid) = [] := by
  cases fires <;> simp [uuidEvents, loginCallBackArgs, Event.loginCallBackArg]

theorem scanCallBackArgs_uuidEvents (fires : Bool) (uuid : String) :
    scanCallBackArgs (uuidEvents fires uuid) = [] := by
  cases fires <;> simp [uuidEvents, scanCallBackArgs, Event.scanCallBackArg]

theorem handleLoginArgs_uuidEvents (fires : Bool) (uuid : String) :
    handleLoginArgs (uuidEvents fires uuid) = [] := by
  cases fires <;> simp [uuidEvents, handleLoginArgs, Event.handleLoginArg]

theorem checkLoginCalls_uuidEvents (fires : Bool) (uuid : String) :
    checkLoginCalls (uuidEvents fires uuid) = [] := by
  cases fires <;> simp [uuidEvents, checkLoginCalls, Event.checkLoginArg]

theorem loginCallBackArgs_pendingEvents (fires : Bool) (uuid : String)
    (ps : List CheckLoginResult) :
    ∀ tip : String, loginCallBackArgs (pendingEvents fires uuid tip ps) = [] := by
  induction ps with
  | nil => intro tip; simp [pendingEvents, loginCallBackArgs]
  | cons r rest ih =>
    intro tip
    rw [pendingEvents_cons, loginCallBackArgs_append, ih, List.append_nil]
    cases hr : r.scannedRaw <;> cases fires <;>
      simp [pendingEvents, loginCallBackArgs, Event.loginCallBackArg, hr]

theorem handleLoginArgs_pendingEvents (fires : Bool) (uuid : String)
    (ps : List CheckLoginResult) :
    ∀ tip : String, handleLoginArgs (pendingEvents fires uuid tip ps) = [] := by
  induction ps with
  | nil => intro tip; simp [pendingEvents, handleLoginArgs]
  | cons r rest ih =>
    intro tip
    rw [pendingEvents_cons, handleLoginArgs_append, ih, List.append_nil]
    cases hr : r.scannedRaw <;> cases fires <;>
      simp [pendingEvents, handleLoginArgs, Event.handleLoginArg, hr]

theorem scanCallBackArgs_pendingEvents_true (uuid : String) (ps : List CheckLoginResult) :
    ∀ tip : String, scanCallBackArgs (pendingEvents true uuid tip ps) = scannedRaws ps := by
  induction ps with
  | nil => intro tip; simp [pendingEvents, scanCallBackArgs, scannedRaws]
  | cons r rest ih =>
    intro tip
    rw [pendingEvents_cons, scanCallBackArgs_append, ih]
    cases hr : r.scannedRaw <;>
      simp [pendingEvents, scanCallBackArgs, Event.scanCallBackArg, scannedRaws, hr]

theorem length_checkLoginCalls_pendingEvents (fires : Bool) (uuid : String)
    (ps : List CheckLoginResult) :
    ∀ tip : String, (checkLoginCalls (pendingEvents fires uuid tip ps)).length = ps.length := by
  induction ps with
  | nil => intro tip; simp [pendingEvents, checkLoginCalls]
  | cons r rest ih =>
    intro tip
    rw [pendingEvents_cons, checkLoginCalls_append, List.length_append, ih]
    cases hr : r.scannedRaw <;> cases fires <;>
      simp [pendingEvents, checkLoginCalls, Event.checkLoginArg, hr, Nat.add_comm]

theorem scanCallBackArgs_terminalEvents (bot : Bot) (fires : Bool) (t : CheckLoginResult) :
    scanCallBackArgs (terminalEvents bot fires t) = [] := by
  cases t with
  | error err => simp [terminalEvents, scanCallBackArgs]
  | ok resp =>
    obtain ⟨code, raw⟩ := resp
    cases code <;> simp [terminalEvents, scanCallBackArgs, Event.scanCallBackArg]
    cases bot.HandleLogin raw <;> cases fires <;> simp [Event.scanCallBackArg]

theorem checkLoginCalls_terminalEvents (bot : Bot) (fires : Bool) (t : CheckLoginResult) :
    checkLoginCalls (terminalEvents bot fires t) = [] := by
  cases t with
  | error err => simp [terminalEvents, checkLoginCalls]
  | ok resp =>
    obtain ⟨code, raw⟩ := resp
    cases code <;> simp [terminalEvents, checkLoginCalls, Event.checkLoginArg]
    cases bot.HandleLogin raw <;> cases fires <;> simp [Event.checkLoginArg]

theorem scannedRaw_of_isTerminal (t : CheckLoginResult) (h : t.isTerminal = true) :
    t.scannedRaw = none := by
  cases t with
  | error err => rfl
  | ok resp =>
    obtain ⟨code, raw⟩ := resp
    cases code <;> simp [CheckLoginResult.isTerminal, CheckLoginResult.scannedRaw] at h ⊢

theorem length_scannedRaws (ps : List CheckLoginResult) :
    (scannedRaws ps).length = ps.countP CheckLoginResult.isScanned := by
  induction ps with
  | nil => rfl
  | cons r rest ih =>
    cases r with
    | error err =>
      simpa [scannedRaws, CheckLoginResult.scannedRaw, CheckLoginResult.isScanned,
        List.countP_cons] using ih
    | ok resp =>
      obtain ⟨code, raw⟩ := resp
      cases code <;>
        simpa [scannedRaws, CheckLoginResult.scannedRaw, CheckLoginResult.isScanned,
          List.countP_cons] using ih

/-! ## The returned value does not depend on `StatusScanned` responses -/

theorem scanLoop_dropScanned (uuid uuid' : String)
    (ps : List CheckLoginResult) :
    ∀ w w' : World, w.bot.HandleLogin = w'.bot.HandleLogin →
      (SacnLogin.checkLoginLoop uuid ps w).1 =
        (SacnLogin.checkLoginLoop uuid' (dropScanned ps) w').1 := by
  induction ps with
  | nil => intro w w' _; rfl
  | cons r rest ih =>
    intro w w' hh
    cases r with
    | error err => simp [SacnLogin.checkLoginLoop, dropScanned]
    | ok resp =>
      obtain ⟨code, raw⟩ := resp
      cases code with
      | StatusSuccess =>
        have hh' : w.bot.HandleLogin raw = w'.bot.HandleLogin raw := by rw [hh]
        cases h1 : w'.bot.HandleLogin raw <;>
          simp [SacnLogin.checkLoginLoop, dropScanned, World.emit, World.setPolls, hh', h1]
      | StatusTimeout => simp [SacnLogin.checkLoginLoop, dropScanned]
      | StatusScanned =>
        simp only [SacnLogin.checkLoginLoop, dropScanned]
        apply ih
        rw [← hh]
        simp only [World.emit, World.setPolls]
        split <;> rfl
      | StatusWait =>
        simp only [SacnLogin.checkLoginLoop, dropScanned]
        exact ih _ _ hh
      | other c =>
        simp only [SacnLogin.checkLoginLoop, dropScanned]
        exact ih _ _ hh

theorem pushLoop_dropScanned (p p' : PushLogin) (uuid uuid' : String)
    (ps : List CheckLoginResult) :
    ∀ (tip tip' : String) (w w' : World), w.bot.HandleLogin = w'.bot.HandleLogin →
      (p.checkLoginLoop uuid ps tip w).1 =
        (p'.checkLoginLoop uuid' (dropScanned ps) tip' w').1 := by
  induction ps with
  | nil => intro tip tip' w w' _; rfl
  | cons r rest ih =>
    intro tip tip' w w' hh
    cases r with
    | error err => simp [PushLogin.checkLoginLoop, dropScanned]
    | ok resp =>
      obtain ⟨code, raw⟩ := resp
      cases code with
      | StatusSuccess =>
        have hh' : w.bot.HandleLogin raw = w'.bot.HandleLogin raw := by rw [hh]
        cases h1 : w'.bot.HandleLogin raw <;>
          simp [PushLogin.checkLoginLoop, dropScanned, World.emit, World.setPolls, hh', h1]
      | StatusTimeout => simp [PushLogin.checkLoginLoop, dropScanned]
      | StatusScanned =>
        simp only [PushLogin.checkLoginLoop, dropScanned]
        apply ih
        rw [← hh]
        simp only [World.emit, World.setPolls]
        split <;> rfl
      | StatusWait =>
        simp only [PushLogin.checkLoginLoop, dropScanned]
        exact ih _ _ _ _ hh
      | other c =>
        simp only [PushLogin.checkLoginLoop, dropScanned]
        exact ih _ _ _ _ hh

theorem scanCheckLogin_eq_loop (s : SacnLogin) (uuid : String) (w : World) :
    s.checkLogin uuid w =
      SacnLogin.checkLoginLoop uuid w.polls
        ((w.setUUID uuid).emitAll (uuidEvents w.bot.UUIDCallback uuid)) := by
  cases hu : w.bot.UUIDCallback <;>
    simp [SacnLogin.checkLogin, uuidEvents, World.setUUID, World.emit, World.emitAll, hu]

theorem pushCheckLogin_eq_loop (p : PushLogin) (uuid tip : String) (w : World) :
    p.checkLogin uuid tip w =
      p.checkLoginLoop uuid w.polls tip
        ((w.setUUID uuid).emitAll
          (uuidEvents (w.bot.UUIDCallback && !p.opt.withoutUUIDCallback) uuid)) := by
  cases hu : (w.bot.UUIDCallback && !p.opt.withoutUUIDCallback) <;>
    simp [PushLogin.checkLogin, uuidEvents, World.setUUID, World.emit, World.emitAll, hu]

/-! ## Every run of a loop starts with a `CheckLogin` call -/

theorem scanLoop_trace (uuid : String) (ps : List CheckLoginResult) :
    ∀ w : World, ∃ evs, (SacnLogin.checkLoginLoop uuid ps w).2.trace =
      w.trace ++ Event.CheckLogin uuid "0" :: evs := by
  induction ps with
  | nil => intro w; exact ⟨[], by simp [SacnLogin.checkLoginLoop, World.emit, World.setPolls]⟩
  | cons r rest ih =>
    intro w
    by_cases h : r.isTerminal = true
    · rw [scanLoop_terminal uuid r rest w h]
      exact ⟨_, rfl⟩
    · have h' : r.isTerminal = false := by simpa using h
      rw [scanLoop_step uuid r rest w h']
      obtain ⟨evs, hevs⟩ := ih (w.emitAll (pendingEvents w.bot.ScanCallBack uuid "0" [r]))
      rw [hevs]
      exact ⟨_, by simp [World.emitAll, pendingEvents]; rfl⟩

theorem pushLoop_trace (p : PushLogin) (uuid : String) (ps : List CheckLoginResult) :
    ∀ (tip : String) (w : World), ∃ evs, (p.checkLoginLoop uuid ps tip w).2.trace =
      w.trace ++ Event.CheckLogin uuid tip :: evs := by
  induction ps with
  | nil =>
    intro tip w
    exact ⟨[], by simp [PushLogin.checkLoginLoop, World.emit, World.setPolls]⟩
  | cons r rest ih =>
    intro tip w
    by_cases h : r.isTerminal = true
    · rw [pushLoop_terminal p uuid tip r rest w h]
      exact ⟨_, rfl⟩
    · have h' : r.isTerminal = false := by simpa using h
      rw [pushLoop_step p uuid tip r rest w h']
      obtain ⟨evs, hevs⟩ := ih (nextTip tip)
        (w.emitAll (pendingEvents (w.bot.ScanCallBack && !p.opt.withoutScanCallback) uuid tip [r]))
      rw [hevs]
      exact ⟨_, by simp [World.emitAll, pendingEvents]; rfl⟩

/-- A run of `SacnLogin.checkLogin` through a block of non-terminal responses. -/
theorem scanCheckLogin_pending (s : SacnLogin) (uuid : String) (w : World)
    (pre rest : List CheckLoginResult) (hpre : ∀ r ∈ pre, r.isTerminal = false)
    (hpolls : w.polls = pre ++ rest) :
    s.checkLogin uuid w =
      SacnLogin.checkLoginLoop uuid rest
        ((w.setUUID uuid).emitAll
          (uuidEvents w.bot.UUIDCallback uuid ++ pendingEvents w.bot.ScanCallBack uuid "0" pre)) := by
  rw [scanCheckLogin_eq_loop, hpolls, scanLoop_pending uuid pre rest _ hpre,
    World.emitAll_emitAll]
  rfl

/-- A run of `PushLogin.checkLogin` through a block of non-terminal responses. -/
theorem pushCheckLogin_pending (p : PushLogin) (uuid tip : String) (w : World)
    (pre rest : List CheckLoginResult) (hpre : ∀ r ∈ pre, r.isTerminal = false)
    (hpolls : w.polls = pre ++ rest) :
    p.checkLogin uuid tip w =
      p.checkLoginLoop uuid rest (tipAfter tip pre)
        ((w.setUUID uuid).emitAll
          (uuidEvents (w.bot.UUIDCallback && !p.opt.withoutUUIDCallback) uuid ++
            pendingEvents (w.bot.ScanCallBack && !p.opt.withoutScanCallback) uuid tip pre)) := by
  rw [pushCheckLogin_eq_loop, hpolls, pushLoop_pending p uuid pre rest _ _ hpre,
    World.emitAll_emitAll]
  rfl

theorem pendingEvents_append_other (fires : Bool) (uuid tip : String)
    (pre : List CheckLoginResult) (c : String) (raw : Raw) :
    pendingEvents fires uuid tip (pre ++ [CheckLoginResult.ok ⟨LoginCode.other c, raw⟩]) =
      pendingEvents fires uuid tip (pre ++ [CheckLoginResult.ok ⟨LoginCode.StatusWait, raw⟩]) := by
  rw [pendingEvents_append, pendingEvents_append]
  rfl

theorem tipAfter_append_singleton (tip : String) (pre : List CheckLoginResult)
    (r : CheckLoginResult) : tipAfter tip (pre ++ [r]) = nextTip tip := by
  cases pre <;> rfl

theorem isTerminal_false_append_singleton (pre : List CheckLoginResult) (x : CheckLoginResult)
    (hpre : ∀ r ∈ pre, r.isTerminal = false) (hx : x.isTerminal = false) :
    ∀ r ∈ pre ++ [x], r.isTerminal = false := by
  intro r hr
  rcases List.mem_append.mp hr with h | h
  · exact hpre r h
  · rw [List.mem_singleton.mp h]; exact hx

/-! ## Frame: the scan strategy ignores the storage handle and the earlier log -/

theorem World.rebase_emit (w : World) (st : HotReloadStorage) (t : List Event) (e : Event) :
    (w.rebase st t).emit e = (w.emit e).rebase st t := by
  simp [World.rebase, World.emit]

theorem World.rebase_setPolls (w : World) (st : HotReloadStorage) (t : List Event)
    (ps : List CheckLoginResult) :
    (w.rebase st t).setPolls ps = (w.setPolls ps).rebase st t := rfl

theorem World.rebase_setUUID (w : World) (st : HotReloadStorage) (t : List Event)
    (uuid : String) :
    (w.rebase st t).setUUID uuid = (w.setUUID uuid).rebase st t := rfl

theorem World.rebase_fresh (w : World) : w.fresh.rebase w.bot.hotReloadStorage w.trace = w := by
  simp [World.rebase, World.fresh]

theorem World.rebase_emitAll (w : World) (st : HotReloadStorage) (t es : List Event) :
    (w.rebase st t).emitAll es = (w.emitAll es).rebase st t := by
  simp [World.rebase, World.emitAll]

theorem terminalOutcome_rebase (w : World) (st : HotReloadStorage) (t : List Event)
    (r : CheckLoginResult) : terminalOutcome (w.rebase st t).bot r = terminalOutcome w.bot r := by
  cases r with
  | error err => rfl
  | ok resp =>
    obtain ⟨code, raw⟩ := resp
    cases code <;> rfl

theorem terminalEvents_rebase (w : World) (st : HotReloadStorage) (t : List Event)
    (fires : Bool) (r : CheckLoginResult) :
    terminalEvents (w.rebase st t).bot fires r = terminalEvents w.bot fires r := by
  cases r with
  | error err => rfl
  | ok resp =>
    obtain ⟨code, raw⟩ := resp
    cases code <;> rfl

theorem scanLoop_rebase (uuid : String) (st : HotReloadStorage) (t : List Event)
    (ps : List CheckLoginResult) :
    ∀ w : World, SacnLogin.checkLoginLoop uuid ps (w.rebase st t) =
      ((SacnLogin.checkLoginLoop uuid ps w).1,
        (SacnLogin.checkLoginLoop uuid ps w).2.rebase st t) := by
  induction ps with
  | nil =>
    intro w
    simp only [SacnLogin.checkLoginLoop, World.rebase_emit, World.rebase_setPolls]
  | cons r rest ih =>
    intro w
    by_cases h : r.isTerminal = true
    · rw [scanLoop_terminal uuid r rest _ h, scanLoop_terminal uuid r rest _ h,
        terminalOutcome_rebase, terminalEvents_rebase, World.rebase_emitAll,
        World.rebase_setPolls]
      rfl
    · have h' : r.isTerminal = false := by simpa using h
      rw [scanLoop_step uuid r rest _ h', scanLoop_step uuid r rest _ h',
        World.rebase_emitAll]
      exact ih _

theorem scanCheckLogin_rebase (s : SacnLogin) (uuid : String) (st : HotReloadStorage)
    (t : List Event) (w : World) :
    s.checkLogin uuid (w.rebase st t) =
      ((s.checkLogin uuid w).1, (s.checkLogin uuid w).2.rebase st t) := by
  unfold SacnLogin.checkLogin
  simp only [World.rebase_setUUID]
  have hu : ((w.setUUID uuid).rebase st t).bot.UUIDCallback = (w.setUUID uuid).bot.UUIDCallback :=
    rfl
  rw [hu]
  cases hU : (w.setUUID uuid).bot.UUIDCallback
  · simpa using scanLoop_rebase uuid st t (w.setUUID uuid).polls (w.setUUID uuid)
  · simpa [World.rebase_emit] using
      scanLoop_rebase uuid st t ((w.setUUID uuid).emit (Event.UUIDCallback uuid)).polls
        ((w.setUUID uuid).emit (Event.UUIDCallback uuid))

theorem scanLogin_rebase (s : SacnLogin) (st : HotReloadStorage) (t : List Event) (w : World) :
    s.Login (w.rebase st t) = ((s.Login w).1, (s.Login w).2.rebase st t) := by
  unfold SacnLogin.Login
  simp only [World.rebase_emit]
  have hg : ((w.emit Event.GetLoginUUID).rebase st t).bot.Caller.GetLoginUUID =
      (w.emit Event.GetLoginUUID).bot.Caller.GetLoginUUID := rfl
  rw [hg]
  cases (w.emit Event.GetLoginUUID).bot.Caller.GetLoginUUID with
  | error err => rfl
  | ok uuid => exact scanCheckLogin_rebase s uuid st t _

/-! ## The scan strategy only produces scan events -/

theorem isScanEvent_uuidEvents (fires : Bool) (uuid : String) :
    ∀ e ∈ uuidEvents fires uuid, e.isScanEvent = true := by
  intro e he
  cases fires <;> simp [uuidEvents] at he
  subst he; rfl

theorem isScanEvent_pendingEvents_singleton (fires : Bool) (uuid tip : String)
    (r : CheckLoginResult) : ∀ e ∈ pendingEvents fires uuid tip [r], e.isScanEvent = true := by
  intro e he
  cases hr : r.scannedRaw <;> cases fires <;> simp [pendingEvents, hr] at he
  all_goals (first | (subst he; rfl) | (rcases he with h | h <;> subst h <;> rfl))

theorem isScanEvent_terminalEvents (bot : Bot) (fires : Bool) (t : CheckLoginResult) :
    ∀ e ∈ terminalEvents bot fires t, e.isScanEvent = true := by
  intro e he
  cases t with
  | error err => simp [terminalEvents] at he
  | ok resp =>
    obtain ⟨code, raw⟩ := resp
    cases code <;> simp [terminalEvents] at he
    rcases he with h | h
    · subst h; rfl
    · cases hH : bot.HandleLogin raw <;> cases fires <;> simp [hH] at h
      subst h; rfl

theorem scanLoop_events (uuid : String) (ps : List CheckLoginResult) :
    ∀ w : World, ∃ evs, (SacnLogin.checkLoginLoop uuid ps w).2.trace = w.trace ++ evs ∧
      ∀ e ∈ evs, e.isScanEvent = true := by
  induction ps with
  | nil =>
    intro w
    refine ⟨[Event.CheckLogin uuid "0"], rfl, ?_⟩
    intro e he
    rw [List.mem_singleton.mp he]; rfl
  | cons r rest ih =>
    intro w
    by_cases h : r.isTerminal = true
    · rw [scanLoop_terminal uuid r rest w h]
      refine ⟨_, rfl, ?_⟩
      intro e he
      rcases List.mem_cons.mp he with h1 | h1
      · rw [h1]; rfl
      · exact isScanEvent_terminalEvents _ _ _ e h1
    · have h' : r.isTerminal = false := by simpa using h
      rw [scanLoop_step uuid r rest w h']
      obtain ⟨evs, hevs, hall⟩ := ih (w.emitAll (pendingEvents w.bot.ScanCallBack uuid "0" [r]))
      refine ⟨pendingEvents w.bot.ScanCallBack uuid "0" [r] ++ evs, ?_, ?_⟩
      · rw [hevs]; simp [World.emitAll]
      · intro e he
        rcases List.mem_append.mp he with h1 | h1
        · exact isScanEvent_pendingEvents_singleton _ _ _ _ e h1
        · exact hall e h1

theorem scanCheckLogin_events (s : SacnLogin) (uuid : String) (w : World) :
    ∃ evs, (s.checkLogin uuid w).2.trace = w.trace ++ evs ∧
      ∀ e ∈ evs, e.isScanEvent = true := by
  rw [scanCheckLogin_eq_loop]
  obtain ⟨evs, hevs, hall⟩ := scanLoop_events uuid w.polls
    ((w.setUUID uuid).emitAll (uuidEvents w.bot.UUIDCallback uuid))
  refine ⟨uuidEvents w.bot.UUIDCallback uuid ++ evs, ?_, ?_⟩
  · rw [hevs]; simp [World.emitAll, World.setUUID]
  · intro e he
    rcases List.mem_append.mp he with h1 | h1
    · exact isScanEvent_uuidEvents _ _ e h1
    · exact hall e h1

theorem scanLogin_error (s : SacnLogin) (w : World) (err : Error)
    (h : w.bot.Caller.GetLoginUUID = UUIDResult.error err) :
    s.Login w = (Outcome.returned (some err), w.emit Event.GetLoginUUID) := by
  simp [SacnLogin.Login, World.emit, h]

theorem scanLogin_ok (s : SacnLogin) (w : World) (uuid : String)
    (h : w.bot.Caller.GetLoginUUID = UUIDResult.ok uuid) :
    s.Login w = s.checkLogin uuid (w.emit Event.GetLoginUUID) := by
  simp [SacnLogin.Login, World.emit, h]

theorem scanLogin_events (s : SacnLogin) (w : World) :
    ∃ evs, (s.Login w).2.trace = w.trace ++ evs ∧ ∀ e ∈ evs, e.isScanEvent = true := by
  cases hg : w.bot.Caller.GetLoginUUID with
  | error err =>
    rw [scanLogin_error s w err hg]
    refine ⟨[Event.GetLoginUUID], rfl, ?_⟩
    intro e he
    rw [List.mem_singleton.mp he]; rfl
  | ok uuid =>
    rw [scanLogin_ok s w uuid hg]
    obtain ⟨evs, hevs, hall⟩ := scanCheckLogin_events s uuid (w.emit Event.GetLoginUUID)
    refine ⟨Event.GetLoginUUID :: evs, ?_, ?_⟩
    · rw [hevs]; simp [World.emit]
    · intro e he
      rcases List.mem_cons.mp he with h1 | h1
      · rw [h1]; rfl
      · exact hall e h1

/-! ## The loops on an arbitrary script -/

theorem terminalOutcome_congr (b b' : Bot) (h : b.HandleLogin = b'.HandleLogin)
    (r : CheckLoginResult) : terminalOutcome b r = terminalOutcome b' r := by
  cases r with
  | error err => rfl
  | ok resp =>
    obtain ⟨code, raw⟩ := resp
    cases code <;> simp [terminalOutcome, h]

theorem terminalEvents_congr (b b' : Bot) (h : b.HandleLogin = b'.HandleLogin) (fires : Bool)
    (r : CheckLoginResult) : terminalEvents b fires r = terminalEvents b' fires r := by
  cases r with
  | error err => rfl
  | ok resp =>
    obtain ⟨code, raw⟩ := resp
    cases code <;> simp [terminalEvents, h]

theorem loopOutcome_congr (b b' : Bot) (h : b.HandleLogin = b'.HandleLogin)
    (ps : List CheckLoginResult) : loopOutcome b ps = loopOutcome b' ps := by
  induction ps with
  | nil => rfl
  | cons r rest ih => simp only [loopOutcome, ih, terminalOutcome_congr b b' h]

theorem loopEvents_congr (b b' : Bot) (h : b.HandleLogin = b'.HandleLogin) (f g : Bool)
    (uuid : String) (ps : List CheckLoginResult) :
    ∀ tip : String, loopEvents b f g uuid tip ps = loopEvents b' f g uuid tip ps := by
  induction ps with
  | nil => intro tip; rfl
  | cons r rest ih =>
    intro tip
    simp only [loopEvents, ih, terminalEvents_congr b b' h]

/-- The push loop on any script: returned value, events and unread script. -/
theorem pushLoop_full (p : PushLogin) (uuid : String) (ps : List CheckLoginResult) :
    ∀ (tip : String) (w : World), p.checkLoginLoop uuid ps tip w =
      (loopOutcome w.bot ps,
        (w.emitAll (loopEvents w.bot (w.bot.ScanCallBack && !p.opt.withoutScanCallback)
          (w.bot.LoginCallBack && !p.opt.withoutLoginCallback) uuid tip ps)).setPolls
          (loopRest ps)) := by
  induction ps with
  | nil => intro tip w; rfl
  | cons r rest ih =>
    intro tip w
    by_cases h : r.isTerminal = true
    · rw [pushLoop_terminal p uuid tip r rest w h]
      simp [loopOutcome, loopEvents, loopRest, h]
    · have h' : r.isTerminal = false := by simpa using h
      rw [pushLoop_step p uuid tip r rest w h', ih]
      simp [loopOutcome, loopEvents, loopRest, h', World.emitAll, World.setPolls]

/-- The scan loop on any script: returned value, events and unread script. -/
theorem scanLoop_full (uuid : String) (ps : List CheckLoginResult) :
    ∀ w : World, SacnLogin.checkLoginLoop uuid ps w =
      (loopOutcome w.bot ps,
        (w.emitAll (loopEvents w.bot w.bot.ScanCallBack w.bot.LoginCallBack uuid "0" ps)).setPolls
          (loopRest ps)) := by
  induction ps with
  | nil => intro w; rfl
  | cons r rest ih =>
    intro w
    by_cases h : r.isTerminal = true
    · rw [scanLoop_terminal uuid r rest w h]
      simp [loopOutcome, loopEvents, loopRest, h]
    · have h' : r.isTerminal = false := by simpa using h
      rw [scanLoop_step uuid r rest w h', ih]
      simp [loopOutcome, loopEvents, loopRest, h', World.emitAll, World.setPolls, nextTip_zero]

/-- A run of `PushLogin.checkLogin` on any script. -/
theorem pushCheckLogin_full (p : PushLogin) (uuid tip : String) (w : World) :
    p.checkLogin uuid tip w =
      (loopOutcome w.bot w.polls,
        ((w.setUUID uuid).emitAll
          (uuidEvents (w.bot.UUIDCallback && !p.opt.withoutUUIDCallback) uuid ++
            loopEvents w.bot (w.bot.ScanCallBack && !p.opt.withoutScanCallback)
              (w.bot.LoginCallBack && !p.opt.withoutLoginCallback) uuid tip w.polls)).setPolls
          (loopRest w.polls)) := by
  rw [pushCheckLogin_eq_loop, pushLoop_full, World.emitAll_emitAll]
  have hb : ((w.setUUID uuid).emitAll
      (uuidEvents (w.bot.UUIDCallback && !p.opt.withoutUUIDCallback) uuid)).bot.HandleLogin =
      w.bot.HandleLogin := rfl
  rw [loopOutcome_congr _ _ hb, loopEvents_congr _ _ hb]
  rfl

/-- A run of `SacnLogin.checkLogin` on any script. -/
theorem scanCheckLogin_full (s : SacnLogin) (uuid : String) (w : World) :
    s.checkLogin uuid w =
      (loopOutcome w.bot w.polls,
        ((w.setUUID uuid).emitAll
          (uuidEvents w.bot.UUIDCallback uuid ++
            loopEvents w.bot w.bot.ScanCallBack w.bot.LoginCallBack uuid "0" w.polls)).setPolls
          (loopRest w.polls)) := by
  rw [scanCheckLogin_eq_loop, scanLoop_full, World.emitAll_emitAll]
  have hb : ((w.setUUID uuid).emitAll (uuidEvents w.bot.UUIDCallback uuid)).bot.HandleLogin =
      w.bot.HandleLogin := rfl
  rw [loopOutcome_congr _ _ hb, loopEvents_congr _ _ hb]
  rfl

/-! ## Observers on the events of a loop -/

theorem checkLoginCalls_pendingEvents_singleton (fires : Bool) (uuid tip : String)
    (r : CheckLoginResult) :
    checkLoginCalls (pendingEvents fires uuid tip [r]) = [(uuid, tip)] := by
  cases hr : r.scannedRaw <;> cases fires <;>
    simp [pendingEvents, checkLoginCalls, Event.checkLoginArg, hr]

theorem checkLoginCalls_cons_checkLogin (uuid tip : String) (evs : List Event) :
    checkLoginCalls (Event.CheckLogin uuid tip :: evs) = (uuid, tip) :: checkLoginCalls evs := by
  simp [checkLoginCalls, Event.checkLoginArg]

theorem handleLoginArgs_cons_checkLogin (uuid tip : String) (evs : List Event) :
    handleLoginArgs (Event.CheckLogin uuid tip :: evs) = handleLoginArgs evs := by
  simp [handleLoginArgs, Event.handleLoginArg]

theorem handleLoginArgs_terminalEvents (bot : Bot) (fires : Bool) (t : CheckLoginResult) :
    handleLoginArgs (terminalEvents bot fires t) = handleLoginArgs (terminalEvents bot false t) := by
  cases t with
  | error err => rfl
  | ok resp =>
    obtain ⟨code, raw⟩ := resp
    cases code <;> simp [terminalEvents, handleLoginArgs, Event.handleLoginArg]
    cases bot.HandleLogin raw <;> cases fires <;> simp [Event.handleLoginArg]


theorem loopEvents_cons_terminal (bot : Bot) (f g : Bool) (uuid tip : String)
    (r : CheckLoginResult) (rest : List CheckLoginResult) (h : r.isTerminal = true) :
    loopEvents bot f g uuid tip (r :: rest) =
      Event.CheckLogin uuid tip :: terminalEvents bot g r := by
  simp [loopEvents, h]

theorem loopEvents_cons_pending (bot : Bot) (f g : Bool) (uuid tip : String)
    (r : CheckLoginResult) (rest : List CheckLoginResult) (h : r.isTerminal = false) :
    loopEvents bot f g uuid tip (r :: rest) =
      pendingEvents f uuid tip [r] ++ loopEvents bot f g uuid (nextTip tip) rest := by
  simp [loopEvents, h]

/-- The polls of a loop: the first call carries the initial tip, every later
call the downgraded tip, all with the same identifier. -/
theorem checkLoginCalls_loopEvents (bot : Bot) (f g : Bool) (uuid : String)
    (ps : List CheckLoginResult) :
    ∀ tip : String, ∃ k, checkLoginCalls (loopEvents bot f g uuid tip ps) =
      (uuid, tip) :: List.replicate k (uuid, nextTip tip) := by
  induction ps with
  | nil => intro tip; exact ⟨0, by simp [loopEvents, checkLoginCalls, Event.checkLoginArg]⟩
  | cons r rest ih =>
    intro tip
    cases h : r.isTerminal
    · obtain ⟨k, hk⟩ := ih (nextTip tip)
      refine ⟨k + 1, ?_⟩
      rw [loopEvents_cons_pending _ _ _ _ _ _ _ h, checkLoginCalls_append,
        checkLoginCalls_pendingEvents_singleton, hk, nextTip_nextTip]
      rfl
    · refine ⟨0, ?_⟩
      rw [loopEvents_cons_terminal _ _ _ _ _ _ _ h, checkLoginCalls_cons_checkLogin,
        checkLoginCalls_terminalEvents]
      rfl

theorem checkLoginCalls_loopEvents_flags (bot : Bot) (f g f' g' : Bool) (uuid : String)
    (ps : List CheckLoginResult) :
    ∀ tip : String, checkLoginCalls (loopEvents bot f g uuid tip ps) =
      checkLoginCalls (loopEvents bot f' g' uuid tip ps) := by
  induction ps with
  | nil => intro tip; rfl
  | cons r rest ih =>
    intro tip
    cases h : r.isTerminal
    · rw [loopEvents_cons_pending _ _ _ _ _ _ _ h, loopEvents_cons_pending _ _ _ _ _ _ _ h,
        checkLoginCalls_append, checkLoginCalls_append, checkLoginCalls_pendingEvents_singleton,
        checkLoginCalls_pendingEvents_singleton, ih (nextTip tip)]
    · rw [loopEvents_cons_terminal _ _ _ _ _ _ _ h, loopEvents_cons_terminal _ _ _ _ _ _ _ h,
        checkLoginCalls_cons_checkLogin, checkLoginCalls_cons_checkLogin,
        checkLoginCalls_terminalEvents, checkLoginCalls_terminalEvents]

theorem handleLoginArgs_loopEvents_flags (bot : Bot) (f g f' g' : Bool) (uuid : String)
    (ps : List CheckLoginResult) :
    ∀ tip : String, handleLoginArgs (loopEvents bot f g uuid tip ps) =
      handleLoginArgs (loopEvents bot f' g' uuid tip ps) := by
  induction ps with
  | nil => intro tip; rfl
  | cons r rest ih =>
    intro tip
    cases h : r.isTerminal
    · rw [loopEvents_cons_pending _ _ _ _ _ _ _ h, loopEvents_cons_pending _ _ _ _ _ _ _ h,
        handleLoginArgs_append, handleLoginArgs_append, handleLoginArgs_pendingEvents,
        handleLoginArgs_pendingEvents, ih (nextTip tip)]
    · rw [loopEvents_cons_terminal _ _ _ _ _ _ _ h, loopEvents_cons_terminal _ _ _ _ _ _ _ h,
        handleLoginArgs_cons_checkLogin, handleLoginArgs_cons_checkLogin,
        handleLoginArgs_terminalEvents bot g, handleLoginArgs_terminalEvents bot g']

theorem isPollEvent_pendingEvents_singleton (fires : Bool) (uuid tip : String)
    (r : CheckLoginResult) : ∀ e ∈ pendingEvents fires uuid tip [r], e.isPollEvent = true := by
  intro e he
  cases hr : r.scannedRaw <;> cases fires <;> simp [pendingEvents, hr] at he
  all_goals (first | (subst he; rfl) | (rcases he with h | h <;> subst h <;> rfl))

theorem isPollEvent_terminalEvents (bot : Bot) (fires : Bool) (t : CheckLoginResult) :
    ∀ e ∈ terminalEvents bot fires t, e.isPollEvent = true := by
  intro e he
  cases t with
  | error err => simp [terminalEvents] at he
  | ok resp =>
    obtain ⟨code, raw⟩ := resp
    cases code <;> simp [terminalEvents] at he
    rcases he with h | h
    · subst h; rfl
    · cases hH : bot.HandleLogin raw <;> cases fires <;> simp [hH] at h
      subst h; rfl

theorem isPollEvent_loopEvents (bot : Bot) (f g : Bool) (uuid : String)
    (ps : List CheckLoginResult) :
    ∀ tip : String, ∀ e ∈ loopEvents bot f g uuid tip ps, e.isPollEvent = true := by
  induction ps with
  | nil =>
    intro tip e he
    rw [List.mem_singleton.mp he]; rfl
  | cons r rest ih =>
    intro tip e he
    cases h : r.isTerminal
    · rw [loopEvents_cons_pending _ _ _ _ _ _ _ h] at he
      rcases List.mem_append.mp he with h1 | h1
      · exact isPollEvent_pendingEvents_singleton _ _ _ _ e h1
      · exact ih _ e h1
    · rw [loopEvents_cons_terminal _ _ _ _ _ _ _ h] at he
      rcases List.mem_cons.mp he with h1 | h1
      · rw [h1]; rfl
      · exact isPollEvent_terminalEvents _ _ _ e h1

theorem uuidCallbackArgs_append (a b : List Event) :
    uuidCallbackArgs (a ++ b) = uuidCallbackArgs a ++ uuidCallbackArgs b := by
  simp [uuidCallbackArgs]

theorem uuidCallbackArgs_of_isPollEvent (evs : List Event)
    (h : ∀ e ∈ evs, e.isPollEvent = true) : uuidCallbackArgs evs = [] := by
  induction evs with
  | nil => rfl
  | cons e rest ih =>
    have he := h e (List.mem_cons_self _ _)
    have hrest := ih (fun x hx => h x (List.mem_cons_of_mem _ hx))
    cases e <;> simp [Event.isPollEvent] at he <;>
      simpa [uuidCallbackArgs, Event.uuidCallbackArg] using hrest

theorem count_getLoginUUID_of_isPollEvent (evs : List Event)
    (h : ∀ e ∈ evs, e.isPollEvent = true) : evs.count Event.GetLoginUUID = 0 := by
  rw [List.count_eq_zero]
  intro hmem
  have := h _ hmem
  simp [Event.isPollEvent] at this

theorem uuidCallbackArgs_uuidEvents (fires : Bool) (uuid : String) :
    uuidCallbackArgs (uuidEvents fires uuid) = if fires then [uuid] else [] := by
  cases fires <;> simp [uuidEvents, uuidCallbackArgs, Event.uuidCallbackArg]

theorem count_getLoginUUID_uuidEvents (fires : Bool) (uuid : String) :
    (uuidEvents fires uuid).count Event.GetLoginUUID = 0 := by
  cases fires <;> simp [uuidEvents]

/-! ## The `Login` functions, case by case -/

theorem hotLogin_reload_error (h : HotLogin) (w : World) (e : Error)
    (hreload : w.bot.reload h.storage = some e) :
    h.login w = (some e, (w.setStorage h.storage).emit (Event.reload h.storage)) := by
  simp [HotLogin.login, HotLogin.hotLoginInit, World.setStorage, World.emit, hreload]

theorem hotLogin_reload_ok (h : HotLogin) (w : World)
    (hreload : w.bot.reload h.storage = none) :
    h.login w = (w.bot.WebInit,
      ((w.setStorage h.storage).emit (Event.reload h.storage)).emit Event.WebInit) := by
  simp [HotLogin.login, HotLogin.hotLoginInit, World.setStorage, World.emit, hreload]

theorem hotLogin_failure_retry (h : HotLogin) (s : SacnLogin) (w : World) (e : Error)
    (hretry : h.opt.withRetry = true) (hfail : (h.login w).1 = some e) :
    h.Login w = s.Login (h.login w).2 := by
  unfold HotLogin.Login
  rcases hlog : h.login w with ⟨r, w1⟩
  rw [hlog] at hfail
  simp only at hfail
  subst hfail
  simp [hretry]

theorem hotLogin_no_retry (h : HotLogin) (w : World) (hretry : h.opt.withRetry = false) :
    h.Login w = (Outcome.returned (h.login w).1, (h.login w).2) := by
  unfold HotLogin.Login
  rcases hlog : h.login w with ⟨r, w1⟩
  cases r <;> simp [hretry]

theorem hotLogin_success (h : HotLogin) (w : World) (hok : (h.login w).1 = none) :
    h.Login w = (Outcome.returned none, (h.login w).2) := by
  unfold HotLogin.Login
  rcases hlog : h.login w with ⟨r, w1⟩
  rw [hlog] at hok
  simp only at hok
  subst hok
  rfl

theorem pushLogin_reload_error (p : PushLogin) (w : World) (e : Error)
    (hreload : w.bot.reload p.storage = some e) :
    p.Login w =
      (Outcome.returned (some e), (w.setStorage p.storage).emit (Event.reload p.storage)) := by
  simp [PushLogin.Login, PushLogin.pushLoginInit, World.setStorage, World.emit, hreload]

theorem pushLogin_transport_error (p : PushLogin) (w : World) (e : Error)
    (hreload : w.bot.reload p.storage = none)
    (hpush : w.bot.Caller.WebWxPushLogin w.bot.WxUin = PushLoginResult.error e) :
    p.Login w = (Outcome.returned (some e), p.pollStart w) := by
  simp [PushLogin.Login, PushLogin.pushLoginInit, PushLogin.pollStart, World.setStorage,
    World.emit, hreload, hpush]

theorem pushLogin_app_error (p : PushLogin) (w : World) (resp : PushLoginResponse) (e : Error)
    (hreload : w.bot.reload p.storage = none)
    (hpush : w.bot.Caller.WebWxPushLogin w.bot.WxUin = PushLoginResult.ok resp)
    (herr : resp.Err = some e) :
    p.Login w = (Outcome.returned (some e), p.pollStart w) := by
  simp [PushLogin.Login, PushLogin.pushLoginInit, PushLogin.pollStart, World.setStorage,
    World.emit, hreload, hpush, herr]

theorem pushLogin_polling (p : PushLogin) (w : World) (resp : PushLoginResponse)
    (hreload : w.bot.reload p.storage = none)
    (hpush : w.bot.Caller.WebWxPushLogin w.bot.WxUin = PushLoginResult.ok resp)
    (herr : resp.Err = none) :
    p.Login w =
      match p.checkLogin resp.UUID "1" (p.pollStart w) with
      | (Outcome.returned (some err), w3) =>
        if p.opt.withRetry then SacnLogin.Login {} w3 else (Outcome.returned (some err), w3)
      | (out, w3) => (out, w3) := by
  simp [PushLogin.Login, PushLogin.pushLoginInit, PushLogin.pollStart, World.setStorage,
    World.emit, hreload, hpush, herr]

theorem pushLogin_fallback (p : PushLogin) (s : SacnLogin) (w : World)
    (resp : PushLoginResponse) (e : Error)
    (hreload : w.bot.reload p.storage = none)
    (hpush : w.bot.Caller.WebWxPushLogin w.bot.WxUin = PushLoginResult.ok resp)
    (herr : resp.Err = none) (hretry : p.opt.withRetry = true)
    (hfail : (p.checkLogin resp.UUID "1" (p.pollStart w)).1 = Outcome.returned (some e)) :
    p.Login w = s.Login (p.checkLogin resp.UUID "1" (p.pollStart w)).2 := by
  rw [pushLogin_polling p w resp hreload hpush herr]
  rcases hc : p.checkLogin resp.UUID "1" (p.pollStart w) with ⟨out, w3⟩
  rw [hc] at hfail
  simp only at hfail
  subst hfail
  simp [hretry]

theorem pushLogin_no_fallback (p : PushLogin) (w : World) (resp : PushLoginResponse)
    (hreload : w.bot.reload p.storage = none)
    (hpush : w.bot.Caller.WebWxPushLogin w.bot.WxUin = PushLoginResult.ok resp)
    (herr : resp.Err = none)
    (hno : p.opt.withRetry = false ∨
      ∀ e, (p.checkLogin resp.UUID "1" (p.pollStart w)).1 ≠ Outcome.returned (some e)) :
    p.Login w = p.checkLogin resp.UUID "1" (p.pollStart w) := by
  rw [pushLogin_polling p w resp hreload hpush herr]
  rcases hc : p.checkLogin resp.UUID "1" (p.pollStart w) with ⟨out, w3⟩
  rw [hc] at hno
  cases out with
  | blocked => rfl
  | returned err =>
    cases err with
    | none => rfl
    | some e =>
      rcases hno with h1 | h1
      · simp [h1]
      · exact absurd rfl (h1 e)

theorem loopEvents_head (bot : Bot) (f g : Bool) (uuid : String) (ps : List CheckLoginResult) :
    ∀ tip : String, ∃ evs, loopEvents bot f g uuid tip ps = Event.CheckLogin uuid tip :: evs := by
  intro tip
  cases ps with
  | nil => exact ⟨[], rfl⟩
  | cons r rest =>
    cases h : r.isTerminal
    · rw [loopEvents_cons_pending _ _ _ _ _ _ _ h]
      exact ⟨_, rfl⟩
    · rw [loopEvents_cons_terminal _ _ _ _ _ _ _ h]
      exact ⟨_, rfl⟩

/-! ## Shape of a run from its returned value -/

theorem loopOutcome_returned (bot : Bot) (ps : List CheckLoginResult) (x : Option Error)
    (h : loopOutcome bot ps = Outcome.returned x) :
    ∃ pre t rest, ps = pre ++ t :: rest ∧ (∀ r ∈ pre, r.isTerminal = false) ∧
      t.isTerminal = true ∧ terminalOutcome bot t = Outcome.returned x := by
  induction ps with
  | nil => simp [loopOutcome] at h
  | cons r rest ih =>
    cases hr : r.isTerminal
    · simp only [loopOutcome, hr] at h
      obtain ⟨pre, t, rest', hps, hpre, ht, hout⟩ := ih (by simpa using h)
      refine ⟨r :: pre, t, rest', by rw [hps]; rfl, ?_, ht, hout⟩
      intro y hy
      rcases List.mem_cons.mp hy with h1 | h1
      · rw [h1]; exact hr
      · exact hpre y h1
    · simp only [loopOutcome, hr, if_true] at h
      exact ⟨[], r, rest, rfl, by simp, hr, h⟩

theorem terminalOutcome_none (bot : Bot) (t : CheckLoginResult)
    (h : terminalOutcome bot t = Outcome.returned none) :
    ∃ raw, t = CheckLoginResult.ok ⟨LoginCode.StatusSuccess, raw⟩ ∧ bot.HandleLogin raw = none := by
  cases t with
  | error err => simp [terminalOutcome] at h
  | ok resp =>
    obtain ⟨code, raw⟩ := resp
    cases code <;> simp [terminalOutcome] at h
    exact ⟨raw, rfl, h⟩

theorem terminalEvents_of_failure (bot : Bot) (fires : Bool) (t : CheckLoginResult) (e : Error)
    (h : terminalOutcome bot t = Outcome.returned (some e)) :
    loginCallBackArgs (terminalEvents bot fires t) = [] ∧
      (handleLoginArgs (terminalEvents bot fires t)).length ≤ 1 ∧
      ∀ r ∈ handleLoginArgs (terminalEvents bot fires t), bot.HandleLogin r ≠ none := by
  cases t with
  | error err => simp [terminalEvents, loginCallBackArgs, handleLoginArgs]
  | ok resp =>
    obtain ⟨code, raw⟩ := resp
    cases code <;>
      simp [terminalOutcome, terminalEvents, loginCallBackArgs, handleLoginArgs,
        Event.loginCallBackArg, Event.handleLoginArg] at h ⊢
    simp [h]

theorem scanCallBackArgs_loopEvents_true (bot : Bot) (g : Bool) (uuid : String)
    (ps : List CheckLoginResult) :
    ∀ tip : String,
      scanCallBackArgs (loopEvents bot true g uuid tip ps) = scannedRaws (loopRead ps) := by
  induction ps with
  | nil => intro tip; simp [loopEvents, loopRead, scanCallBackArgs, scannedRaws,
      Event.scanCallBackArg]
  | cons r rest ih =>
    intro tip
    cases h : r.isTerminal
    · rw [loopEvents_cons_pending _ _ _ _ _ _ _ h, scanCallBackArgs_append, ih (nextTip tip),
        scanCallBackArgs_pendingEvents_true]
      simp only [loopRead, h, scannedRaws]
      rw [← List.filterMap_append]
      rfl
    · rw [loopEvents_cons_terminal _ _ _ _ _ _ _ h, ← List.singleton_append,
        scanCallBackArgs_append, scanCallBackArgs_terminalEvents]
      simp [loopRead, h, scannedRaws, scanCallBackArgs, Event.scanCallBackArg,
        scannedRaw_of_isTerminal r h]

/-- A polling run that returns nil: its events end with the `HandleLogin` call
on the success payload, followed by the success hook when it fires. -/
theorem loopEvents_of_success (bot : Bot) (f g : Bool) (uuid tip : String)
    (ps : List CheckLoginResult) (h : loopOutcome bot ps = Outcome.returned none) :
    ∃ a raw, loopEvents bot f g uuid tip ps =
        a ++ Event.HandleLogin raw :: (if g then [Event.LoginCallBack raw] else []) ∧
      bot.HandleLogin raw = none ∧ handleLoginArgs a = [] ∧ loginCallBackArgs a = [] ∧
      uuidCallbackArgs a = [] ∧ a.count Event.GetLoginUUID = 0 := by
  obtain ⟨pre, t, rest, hps, hpre, ht, hout⟩ := loopOutcome_returned bot ps none h
  obtain ⟨raw, htk, hinit⟩ := terminalOutcome_none bot t hout
  subst htk
  subst hps
  have hall := isPollEvent_loopEvents bot f g uuid
    (pre ++ CheckLoginResult.ok ⟨LoginCode.StatusSuccess, raw⟩ :: rest) tip
  have hshape : loopEvents bot f g uuid tip
      (pre ++ CheckLoginResult.ok ⟨LoginCode.StatusSuccess, raw⟩ :: rest) =
      (pendingEvents f uuid tip pre ++ [Event.CheckLogin uuid (tipAfter tip pre)]) ++
        Event.HandleLogin raw :: (if g then [Event.LoginCallBack raw] else []) := by
    clear hall h hout
    induction pre generalizing tip with
    | nil => cases g <;> simp [loopEvents, CheckLoginResult.isTerminal, terminalEvents, hinit,
        pendingEvents, tipAfter]
    | cons r pre ih =>
      have hr : r.isTerminal = false := hpre r (List.mem_cons_self _ _)
      rw [List.cons_append, loopEvents_cons_pending _ _ _ _ _ _ _ hr,
        ih (nextTip tip) (fun x hx => hpre x (List.mem_cons_of_mem _ hx)),
        pendingEvents_cons f uuid tip r pre, tipAfter_nextTip]
      simp [tipAfter]
  rw [hshape] at hall
  have hall' : ∀ e ∈ pendingEvents f uuid tip pre ++ [Event.CheckLogin uuid (tipAfter tip pre)],
      e.isPollEvent = true := fun e he => hall e (List.mem_append_left _ he)
  refine ⟨_, raw, hshape, hinit, ?_, ?_, uuidCallbackArgs_of_isPollEvent _ hall',
    count_getLoginUUID_of_isPollEvent _ hall'⟩
  · rw [handleLoginArgs_append, handleLoginArgs_pendingEvents]
    rfl
  · rw [loginCallBackArgs_append, loginCallBackArgs_pendingEvents]
    rfl

/-- A polling run that returns an error: no success hook, at most one
`HandleLogin` call, and that call failed. -/
theorem loopEvents_of_failure (bot : Bot) (f g : Bool) (uuid tip : String)
    (ps : List CheckLoginResult) (e : Error)
    (h : loopOutcome bot ps = Outcome.returned (some e)) :
    loginCallBackArgs (loopEvents bot f g uuid tip ps) = [] ∧
      (handleLoginArgs (loopEvents bot f g uuid tip ps)).length ≤ 1 ∧
      ∀ r ∈ handleLoginArgs (loopEvents bot f g uuid tip ps), bot.HandleLogin r ≠ none := by
  induction ps generalizing tip with
  | nil => simp [loopOutcome] at h
  | cons r rest ih =>
    cases hr : r.isTerminal
    · simp only [loopOutcome, hr] at h
      have := ih (nextTip tip) (by simpa using h)
      rw [loopEvents_cons_pending _ _ _ _ _ _ _ hr, loginCallBackArgs_append,
        handleLoginArgs_append, loginCallBackArgs_pendingEvents, handleLoginArgs_pendingEvents]
      simpa using this
    · simp only [loopOutcome, hr, if_true] at h
      have := terminalEvents_of_failure bot g r e h
      rw [loopEvents_cons_terminal _ _ _ _ _ _ _ hr, ← List.singleton_append,
        loginCallBackArgs_append, handleLoginArgs_append]
      simpa [loginCallBackArgs, handleLoginArgs, Event.loginCallBackArg,
        Event.handleLoginArg] using this

theorem pushCheckLogin_bot (p : PushLogin) (uuid tip : String) (v : World) :
    (p.checkLogin uuid tip v).2.bot = (v.setUUID uuid).bot := by
  rw [pushCheckLogin_full]
  rfl

theorem pushCheckLogin_outcome (p : PushLogin) (uuid tip : String) (v : World) :
    (p.checkLogin uuid tip v).1 = loopOutcome v.bot v.polls := by
  rw [pushCheckLogin_full]

theorem pushCheckLogin_trace (p : PushLogin) (uuid tip : String) (v : World) :
    (p.checkLogin uuid tip v).2.trace =
      v.trace ++ (uuidEvents (v.bot.UUIDCallback && !p.opt.withoutUUIDCallback) uuid ++
        loopEvents v.bot (v.bot.ScanCallBack && !p.opt.withoutScanCallback)
          (v.bot.LoginCallBack && !p.opt.withoutLoginCallback) uuid tip v.polls) := by
  rw [pushCheckLogin_full]
  rfl

theorem scanCheckLogin_trace (s : SacnLogin) (uuid : String) (v : World) :
    (s.checkLogin uuid v).2.trace =
      v.trace ++ (uuidEvents v.bot.UUIDCallback uuid ++
        loopEvents v.bot v.bot.ScanCallBack v.bot.LoginCallBack uuid "0" v.polls) := by
  rw [scanCheckLogin_full]
  rfl

theorem pushCheckLogin_count (p : PushLogin) (uuid tip : String) (v : World) :
    ∃ evs, (p.checkLogin uuid tip v).2.trace = v.trace ++ evs ∧
      evs.count Event.GetLoginUUID = 0 := by
  refine ⟨_, pushCheckLogin_trace p uuid tip v, ?_⟩
  rw [List.count_append, count_getLoginUUID_uuidEvents,
    count_getLoginUUID_of_isPollEvent _ (isPollEvent_loopEvents _ _ _ _ _ _)]

theorem scanLogin_count (s : SacnLogin) (v : World) :
    ∃ evs, (s.Login v).2.trace = v.trace ++ evs ∧ evs.count Event.GetLoginUUID = 1 := by
  cases hg : v.bot.Caller.GetLoginUUID with
  | error err =>
    rw [scanLogin_error s v err hg]
    exact ⟨[Event.GetLoginUUID], rfl, rfl⟩
  | ok uuid =>
    rw [scanLogin_ok s v uuid hg, scanCheckLogin_trace]
    refine ⟨Event.GetLoginUUID :: (uuidEvents (v.emit Event.GetLoginUUID).bot.UUIDCallback uuid ++
      loopEvents (v.emit Event.GetLoginUUID).bot (v.emit Event.GetLoginUUID).bot.ScanCallBack
        (v.emit Event.GetLoginUUID).bot.LoginCallBack uuid "0"
        (v.emit Event.GetLoginUUID).polls), ?_, ?_⟩
    · simp [World.emit]
    · rw [List.count_cons_self, List.count_append, count_getLoginUUID_uuidEvents,
        count_getLoginUUID_of_isPollEvent _ (isPollEvent_loopEvents _ _ _ _ _ _)]

/-- A scan login that returns nil: the identifier was issued, and the run ends
with the one `HandleLogin` call followed by the success hook when it is set. -/
theorem scanLogin_success_shape (s : SacnLogin) (v : World)
    (h : (s.Login v).1 = Outcome.returned none) :
    ∃ u a raw, v.bot.Caller.GetLoginUUID = UUIDResult.ok u ∧
      (s.Login v).2.trace = v.trace ++ Event.GetLoginUUID :: a ++
        Event.HandleLogin raw :: (if v.bot.LoginCallBack then [Event.LoginCallBack raw] else []) ∧
      v.bot.HandleLogin raw = none ∧ handleLoginArgs a = [] ∧ loginCallBackArgs a = [] ∧
      uuidCallbackArgs a = (if v.bot.UUIDCallback then [u] else []) := by
  cases hg : v.bot.Caller.GetLoginUUID with
  | error err =>
    rw [scanLogin_error s v err hg] at h
    cases h
  | ok uuid =>
    rw [scanLogin_ok s v uuid hg] at h ⊢
    rw [scanCheckLogin_full] at h
    obtain ⟨a, raw, hshape, hinit, hha, hla, hua, -⟩ :=
      loopEvents_of_success (v.emit Event.GetLoginUUID).bot
        (v.emit Event.GetLoginUUID).bot.ScanCallBack (v.emit Event.GetLoginUUID).bot.LoginCallBack
        uuid "0" (v.emit Event.GetLoginUUID).polls h
    refine ⟨uuid, uuidEvents v.bot.UUIDCallback uuid ++ a, raw, rfl, ?_, hinit, ?_, ?_, ?_⟩
    · rw [scanCheckLogin_trace, hshape]
      simp [World.emit]
    · rw [handleLoginArgs_append, handleLoginArgs_uuidEvents, hha]
      rfl
    · rw [loginCallBackArgs_append, loginCallBackArgs_uuidEvents, hla]
      rfl
    · rw [uuidCallbackArgs_append, uuidCallbackArgs_uuidEvents, hua, List.append_nil]

/-- A push polling phase that returns nil: the run ends with the one
`HandleLogin` call followed by the success hook when it fires. -/
theorem pushCheckLogin_success_shape (p : PushLogin) (uuid tip : String) (v : World)
    (h : (p.checkLogin uuid tip v).1 = Outcome.returned none) :
    ∃ a raw, (p.checkLogin uuid tip v).2.trace = v.trace ++ a ++
        Event.HandleLogin raw ::
          (if (v.bot.LoginCallBack && !p.opt.withoutLoginCallback)
            then [Event.LoginCallBack raw] else []) ∧
      v.bot.HandleLogin raw = none ∧ handleLoginArgs a = [] ∧ loginCallBackArgs a = [] := by
  rw [pushCheckLogin_outcome] at h
  obtain ⟨a, raw, hshape, hinit, hha, hla, -, -⟩ :=
    loopEvents_of_success v.bot (v.bot.ScanCallBack && !p.opt.withoutScanCallback)
      (v.bot.LoginCallBack && !p.opt.withoutLoginCallback) uuid tip v.polls h
  refine ⟨uuidEvents (v.bot.UUIDCallback && !p.opt.withoutUUIDCallback) uuid ++ a, raw,
    ?_, hinit, ?_, ?_⟩
  · rw [pushCheckLogin_trace, hshape]
    simp
  · rw [handleLoginArgs_append, handleLoginArgs_uuidEvents, hha]
    rfl
  · rw [loginCallBackArgs_append, loginCallBackArgs_uuidEvents, hla]
    rfl

/-- A push polling phase that returns an error: no success hook, at most one
`HandleLogin` call, and that call failed. -/
theorem pushCheckLogin_failure_shape (p : PushLogin) (uuid tip : String) (v : World) (e : Error)
    (h : (p.checkLogin uuid tip v).1 = Outcome.returned (some e)) :
    ∃ evs, (p.checkLogin uuid tip v).2.trace = v.trace ++ evs ∧
      loginCallBackArgs evs = [] ∧ (handleLoginArgs evs).length ≤ 1 ∧
      ∀ r ∈ handleLoginArgs evs, v.bot.HandleLogin r ≠ none := by
  rw [pushCheckLogin_outcome] at h
  obtain ⟨hl, hh, hr⟩ := loopEvents_of_failure v.bot
    (v.bot.ScanCallBack && !p.opt.withoutScanCallback)
    (v.bot.LoginCallBack && !p.opt.withoutLoginCallback) uuid tip v.polls e h
  refine ⟨_, pushCheckLogin_trace p uuid tip v, ?_, ?_, ?_⟩
  · rw [loginCallBackArgs_append, loginCallBackArgs_uuidEvents, hl]
    rfl
  · rw [handleLoginArgs_append, handleLoginArgs_uuidEvents, List.nil_append]
    exact hh
  · rw [handleLoginArgs_append, handleLoginArgs_uuidEvents, List.nil_append]
    exact hr

/-! ## The claims -/

/-- C1: on a script made of `StatusWait`/`StatusScanned` responses followed by a
`StatusSuccess` response, with `HandleLogin` returning no error on its payload
and `LoginCallBack` set (and not suppressed, for the push loop), both
`checkLogin` functions return nil, and the events of the run end with the
`HandleLogin` call immediately followed by the one `LoginCallBack` invocation,
made on the success payload: no `LoginCallBack` and no `HandleLogin` event
comes earlier in the run. -/
theorem C1_success_hook_once_after_init (s : SacnLogin) (p : PushLogin) (uuid tip : String)
    (w : World) (pre rest : List CheckLoginResult) (raw : Raw)
    (hpre : ∀ r ∈ pre, r.isWaitOrScanned = true)
    (hpolls : w.polls = pre ++ CheckLoginResult.ok ⟨LoginCode.StatusSuccess, raw⟩ :: rest)
    (hinit : w.bot.HandleLogin raw = none)
    (hhook : w.bot.LoginCallBack = true)
    (hopt : p.opt.withoutLoginCallback = false) :
    ((s.checkLogin uuid w).1 = Outcome.returned none ∧
      ∃ evs, (s.checkLogin uuid w).2.trace =
          w.trace ++ evs ++ [Event.HandleLogin raw, Event.LoginCallBack raw] ∧
        loginCallBackArgs evs = [] ∧ handleLoginArgs evs = []) ∧
    ((p.checkLogin uuid tip w).1 = Outcome.returned none ∧
      ∃ evs, (p.checkLogin uuid tip w).2.trace =
          w.trace ++ evs ++ [Event.HandleLogin raw, Event.LoginCallBack raw] ∧
        loginCallBackArgs evs = [] ∧ handleLoginArgs evs = []) := by
  have hpre' : ∀ r ∈ pre, r.isTerminal = false :=
    fun r hr => isTerminal_of_isWaitOrScanned r (hpre r hr)
  have ht : (CheckLoginResult.ok ⟨LoginCode.StatusSuccess, raw⟩).isTerminal = true := rfl
  rw [scanCheckLogin_run s uuid w pre rest _ hpre' ht hpolls,
    pushCheckLogin_run p uuid tip w pre rest _ hpre' ht hpolls]
  refine ⟨⟨?_, uuidEvents w.bot.UUIDCallback uuid ++
      (pendingEvents w.bot.ScanCallBack uuid "0" pre ++ [Event.CheckLogin uuid "0"]),
      ?_, ?_, ?_⟩, ⟨?_, uuidEvents (w.bot.UUIDCallback && !p.opt.withoutUUIDCallback) uuid ++
      (pendingEvents (w.bot.ScanCallBack && !p.opt.withoutScanCallback) uuid tip pre ++
        [Event.CheckLogin uuid (tipAfter tip pre)]), ?_, ?_, ?_⟩⟩
  · simp [terminalOutcome, hinit]
  · simp [terminalEvents, hinit, hhook, World.emitAll, World.setUUID, World.setPolls]
  · simp [loginCallBackArgs_append, loginCallBackArgs_uuidEvents,
      loginCallBackArgs_pendingEvents]
    simp [loginCallBackArgs, Event.loginCallBackArg]
  · simp [handleLoginArgs_append, handleLoginArgs_uuidEvents, handleLoginArgs_pendingEvents]
    simp [handleLoginArgs, Event.handleLoginArg]
  · simp [terminalOutcome, hinit]
  · simp [terminalEvents, hinit, hhook, hopt, World.emitAll, World.setUUID, World.setPolls]
  · simp [loginCallBackArgs_append, loginCallBackArgs_uuidEvents,
      loginCallBackArgs_pendingEvents]
    simp [loginCallBackArgs, Event.loginCallBackArg]
  · simp [handleLoginArgs_append, handleLoginArgs_uuidEvents, handleLoginArgs_pendingEvents]
    simp [handleLoginArgs, Event.handleLoginArg]

/-- Witness for C1 on the script `[Wait, Scanned, Success]`. -/
theorem C1_success_hook_once_after_init_witness :
    ((SacnLogin.checkLogin {} "u" (sampleWorld [answer LoginCode.StatusWait [1],
        answer LoginCode.StatusScanned [2], answer LoginCode.StatusSuccess [3]])).1 =
        Outcome.returned none ∧
      ∃ evs, (SacnLogin.checkLogin {} "u" (sampleWorld [answer LoginCode.StatusWait [1],
          answer LoginCode.StatusScanned [2], answer LoginCode.StatusSuccess [3]])).2.trace =
          [] ++ evs ++ [Event.HandleLogin [3], Event.LoginCallBack [3]] ∧
        loginCallBackArgs evs = [] ∧ handleLoginArgs evs = []) ∧
    ((plainPush.checkLogin "u" "1" (sampleWorld [answer LoginCode.StatusWait [1],
        answer LoginCode.StatusScanned [2], answer LoginCode.StatusSuccess [3]])).1 =
        Outcome.returned none ∧
      ∃ evs, (plainPush.checkLogin "u" "1" (sampleWorld [answer LoginCode.StatusWait [1],
          answer LoginCode.StatusScanned [2], answer LoginCode.StatusSuccess [3]])).2.trace =
          [] ++ evs ++ [Event.HandleLogin [3], Event.LoginCallBack [3]] ∧
        loginCallBackArgs evs = [] ∧ handleLoginArgs evs = []) :=
  C1_success_hook_once_after_init {} plainPush "u" "1"
    (sampleWorld [answer LoginCode.StatusWait [1], answer LoginCode.StatusScanned [2],
      answer LoginCode.StatusSuccess [3]])
    [answer LoginCode.StatusWait [1], answer LoginCode.StatusScanned [2]] [] [3]
    (by decide) rfl rfl rfl rfl

/-- C2: on a script whose first terminal response is `StatusSuccess`, if
`HandleLogin` returns the error `e` on that response's payload, both
`checkLogin` functions return exactly `e`; the run ends with the `HandleLogin`
call (nothing is logged after it, so no further `CheckLogin` call is made and
the rest of the script is left unread), and `LoginCallBack` is never invoked. -/
theorem C2_init_failure_propagates (s : SacnLogin) (p : PushLogin) (uuid tip : String)
    (w : World) (pre rest : List CheckLoginResult) (raw : Raw) (e : Error)
    (hpre : ∀ r ∈ pre, r.isTerminal = false)
    (hpolls : w.polls = pre ++ CheckLoginResult.ok ⟨LoginCode.StatusSuccess, raw⟩ :: rest)
    (hinit : w.bot.HandleLogin raw = some e) :
    ((s.checkLogin uuid w).1 = Outcome.returned (some e) ∧
      (s.checkLogin uuid w).2.polls = rest ∧
      ∃ evs, (s.checkLogin uuid w).2.trace = w.trace ++ evs ++ [Event.HandleLogin raw] ∧
        loginCallBackArgs evs = [] ∧ (checkLoginCalls evs).length = pre.length + 1) ∧
    ((p.checkLogin uuid tip w).1 = Outcome.returned (some e) ∧
      (p.checkLogin uuid tip w).2.polls = rest ∧
      ∃ evs, (p.checkLogin uuid tip w).2.trace = w.trace ++ evs ++ [Event.HandleLogin raw] ∧
        loginCallBackArgs evs = [] ∧ (checkLoginCalls evs).length = pre.length + 1) := by
  have ht : (CheckLoginResult.ok ⟨LoginCode.StatusSuccess, raw⟩).isTerminal = true := rfl
  rw [scanCheckLogin_run s uuid w pre rest _ hpre ht hpolls,
    pushCheckLogin_run p uuid tip w pre rest _ hpre ht hpolls]
  refine ⟨⟨?_, rfl, uuidEvents w.bot.UUIDCallback uuid ++
      (pendingEvents w.bot.ScanCallBack uuid "0" pre ++ [Event.CheckLogin uuid "0"]),
      ?_, ?_, ?_⟩, ⟨?_, rfl, uuidEvents (w.bot.UUIDCallback && !p.opt.withoutUUIDCallback) uuid ++
      (pendingEvents (w.bot.ScanCallBack && !p.opt.withoutScanCallback) uuid tip pre ++
        [Event.CheckLogin uuid (tipAfter tip pre)]), ?_, ?_, ?_⟩⟩
  · simp [terminalOutcome, hinit]
  · simp [terminalEvents, hinit, World.emitAll, World.setUUID, World.setPolls]
  · simp [loginCallBackArgs_append, loginCallBackArgs_uuidEvents,
      loginCallBackArgs_pendingEvents]
    simp [loginCallBackArgs, Event.loginCallBackArg]
  · simp [checkLoginCalls_append, checkLoginCalls_uuidEvents,
      length_checkLoginCalls_pendingEvents]
    simp [checkLoginCalls, Event.checkLoginArg]
  · simp [terminalOutcome, hinit]
  · simp [terminalEvents, hinit, World.emitAll, World.setUUID, World.setPolls]
  · simp [loginCallBackArgs_append, loginCallBackArgs_uuidEvents,
      loginCallBackArgs_pendingEvents]
    simp [loginCallBackArgs, Event.loginCallBackArg]
  · simp [checkLoginCalls_append, checkLoginCalls_uuidEvents,
      length_checkLoginCalls_pendingEvents]
    simp [checkLoginCalls, Event.checkLoginArg]

/-- Witness for C2: the initializer fails on the success payload `[3]`, and a
further answer is left in the script. -/
theorem C2_init_failure_propagates_witness :
    (SacnLogin.checkLogin {} "u"
        { bot := failingInitBot, trace := [],
          polls := waitScanned ++ answer LoginCode.StatusSuccess [3] ::
            [answer LoginCode.StatusSuccess [4]] }).1 =
      Outcome.returned (some (Error.other "init failed")) ∧
    (plainPush.checkLogin "u" "1"
        { bot := failingInitBot, trace := [],
          polls := waitScanned ++ answer LoginCode.StatusSuccess [3] ::
            [answer LoginCode.StatusSuccess [4]] }).2.polls =
      [answer LoginCode.StatusSuccess [4]] :=
  have h := C2_init_failure_propagates {} plainPush "u" "1"
    { bot := failingInitBot, trace := [],
      polls := waitScanned ++ answer LoginCode.StatusSuccess [3] ::
        [answer LoginCode.StatusSuccess [4]] }
    waitScanned [answer LoginCode.StatusSuccess [4]] [3] (Error.other "init failed")
    (by decide) rfl rfl
  ⟨h.1.1, h.2.2.1⟩

/-- C3: on a script made of `StatusWait`/`StatusScanned` responses followed by a
`StatusTimeout` response, both `checkLogin` functions (the push one under every
option setting and initial tip) return `ErrLoginTimeout`, and the events of the
run contain no `LoginCallBack` invocation and no `HandleLogin` call. -/
theorem C3_timeout (s : SacnLogin) (p : PushLogin) (uuid tip : String)
    (w : World) (pre rest : List CheckLoginResult) (raw : Raw)
    (hpre : ∀ r ∈ pre, r.isWaitOrScanned = true)
    (hpolls : w.polls = pre ++ CheckLoginResult.ok ⟨LoginCode.StatusTimeout, raw⟩ :: rest) :
    ((s.checkLogin uuid w).1 = Outcome.returned (some Error.ErrLoginTimeout) ∧
      ∃ evs, (s.checkLogin uuid w).2.trace = w.trace ++ evs ∧
        loginCallBackArgs evs = [] ∧ handleLoginArgs evs = []) ∧
    ((p.checkLogin uuid tip w).1 = Outcome.returned (some Error.ErrLoginTimeout) ∧
      ∃ evs, (p.checkLogin uuid tip w).2.trace = w.trace ++ evs ∧
        loginCallBackArgs evs = [] ∧ handleLoginArgs evs = []) := by
  have hpre' : ∀ r ∈ pre, r.isTerminal = false :=
    fun r hr => isTerminal_of_isWaitOrScanned r (hpre r hr)
  have ht : (CheckLoginResult.ok ⟨LoginCode.StatusTimeout, raw⟩).isTerminal = true := rfl
  rw [scanCheckLogin_run s uuid w pre rest _ hpre' ht hpolls,
    pushCheckLogin_run p uuid tip w pre rest _ hpre' ht hpolls]
  refine ⟨⟨rfl, _, rfl, ?_, ?_⟩, ⟨rfl, _, rfl, ?_, ?_⟩⟩
  · simp [loginCallBackArgs_append, loginCallBackArgs_uuidEvents,
      loginCallBackArgs_pendingEvents, terminalEvents]
    simp [loginCallBackArgs, Event.loginCallBackArg]
  · simp [handleLoginArgs_append, handleLoginArgs_uuidEvents, handleLoginArgs_pendingEvents,
      terminalEvents]
    simp [handleLoginArgs, Event.handleLoginArg]
  · simp [loginCallBackArgs_append, loginCallBackArgs_uuidEvents,
      loginCallBackArgs_pendingEvents, terminalEvents]
    simp [loginCallBackArgs, Event.loginCallBackArg]
  · simp [handleLoginArgs_append, handleLoginArgs_uuidEvents, handleLoginArgs_pendingEvents,
      terminalEvents]
    simp [handleLoginArgs, Event.handleLoginArg]

/-- Witness for C3 on the script `[Wait, Scanned, Timeout]`. -/
theorem C3_timeout_witness :
    (SacnLogin.checkLogin {} "u"
        (sampleWorld (waitScanned ++ [answer LoginCode.StatusTimeout [3]]))).1 =
      Outcome.returned (some Error.ErrLoginTimeout) ∧
    (plainPush.checkLogin "u" "1"
        (sampleWorld (waitScanned ++ [answer LoginCode.StatusTimeout [3]]))).1 =
      Outcome.returned (some Error.ErrLoginTimeout) :=
  have h := C3_timeout {} plainPush "u" "1"
    (sampleWorld (waitScanned ++ [answer LoginCode.StatusTimeout [3]]))
    waitScanned [] [3] (by decide) rfl
  ⟨h.1.1, h.2.1⟩

/-- C4: on a script that ends in its first terminal response (`StatusSuccess`,
`StatusTimeout` or a transport error), with `ScanCallBack` set (and not
suppressed, for the push loop), the `ScanCallBack` invocations of the run are
exactly the payloads of the script's `StatusScanned` responses, in the order of
arrival; in particular there are as many invocations as `StatusScanned`
responses. -/
theorem C4_scan_hook_per_scanned (s : SacnLogin) (p : PushLogin) (uuid tip : String)
    (w : World) (pre rest : List CheckLoginResult) (t : CheckLoginResult)
    (hpre : ∀ r ∈ pre, r.isTerminal = false) (ht : t.isTerminal = true)
    (hpolls : w.polls = pre ++ t :: rest)
    (hhook : w.bot.ScanCallBack = true)
    (hopt : p.opt.withoutScanCallback = false) :
    (∃ evs, (s.checkLogin uuid w).2.trace = w.trace ++ evs ∧
        scanCallBackArgs evs = scannedRaws (pre ++ [t]) ∧
        (scanCallBackArgs evs).length = (pre ++ [t]).countP CheckLoginResult.isScanned) ∧
    (∃ evs, (p.checkLogin uuid tip w).2.trace = w.trace ++ evs ∧
        scanCallBackArgs evs = scannedRaws (pre ++ [t]) ∧
        (scanCallBackArgs evs).length = (pre ++ [t]).countP CheckLoginResult.isScanned) := by
  rw [scanCheckLogin_run s uuid w pre rest _ hpre ht hpolls,
    pushCheckLogin_run p uuid tip w pre rest _ hpre ht hpolls]
  have hs : scannedRaws (pre ++ [t]) = scannedRaws pre := by
    simp [scannedRaws, List.filterMap_append, scannedRaw_of_isTerminal t ht]
  have key : ∀ evs : List Event, scanCallBackArgs evs = scannedRaws pre →
      scanCallBackArgs evs = scannedRaws (pre ++ [t]) ∧
        (scanCallBackArgs evs).length = (pre ++ [t]).countP CheckLoginResult.isScanned := by
    intro evs h
    rw [← length_scannedRaws, hs]
    exact ⟨h, by rw [h]⟩
  refine ⟨⟨_, rfl, key _ ?_⟩, ⟨_, rfl, key _ ?_⟩⟩
  · rw [hhook]
    simp [scanCallBackArgs_append, scanCallBackArgs_uuidEvents,
      scanCallBackArgs_pendingEvents_true]
    rw [← List.singleton_append, scanCallBackArgs_append, scanCallBackArgs_terminalEvents]
    simp [scanCallBackArgs, Event.scanCallBackArg]
  · rw [hhook, hopt]
    simp [scanCallBackArgs_append, scanCallBackArgs_uuidEvents,
      scanCallBackArgs_pendingEvents_true]
    rw [← List.singleton_append, scanCallBackArgs_append, scanCallBackArgs_terminalEvents]
    simp [scanCallBackArgs, Event.scanCallBackArg]

/-- Witness for C4 on the script `[Wait, Scanned, Scanned, Timeout]`. -/
theorem C4_scan_hook_per_scanned_witness :
    (∃ evs, (SacnLogin.checkLogin {} "u" (sampleWorld (waitScanned ++
          [answer LoginCode.StatusScanned [5], answer LoginCode.StatusTimeout [3]]))).2.trace =
          [] ++ evs ∧ scanCallBackArgs evs = [[2], [5]] ∧ (scanCallBackArgs evs).length = 2) ∧
    (∃ evs, (plainPush.checkLogin "u" "1" (sampleWorld (waitScanned ++
          [answer LoginCode.StatusScanned [5], answer LoginCode.StatusTimeout [3]]))).2.trace =
          [] ++ evs ∧ scanCallBackArgs evs = [[2], [5]] ∧ (scanCallBackArgs evs).length = 2) :=
  C4_scan_hook_per_scanned {} plainPush "u" "1"
    (sampleWorld (waitScanned ++
      [answer LoginCode.StatusScanned [5], answer LoginCode.StatusTimeout [3]]))
    (waitScanned ++ [answer LoginCode.StatusScanned [5]]) []
    (answer LoginCode.StatusTimeout [3]) (by decide) rfl rfl rfl rfl

/-- C5: the value returned by the two `checkLogin` functions does not depend on
the `StatusScanned` responses that precede the terminal response: two runs with
the same `HandleLogin` behaviour, on scripts that become equal once the
`StatusScanned` responses before the first `StatusSuccess`/`StatusTimeout`
response are deleted, return the same value. -/
theorem C5_result_ignores_scanned (s : SacnLogin) (p : PushLogin) (uuid tip : String)
    (w w' : World)
    (hinit : w.bot.HandleLogin = w'.bot.HandleLogin)
    (hpolls : dropScanned w.polls = dropScanned w'.polls) :
    (s.checkLogin uuid w).1 = (s.checkLogin uuid w').1 ∧
    (p.checkLogin uuid tip w).1 = (p.checkLogin uuid tip w').1 := by
  constructor
  · rw [scanCheckLogin_eq_loop, scanCheckLogin_eq_loop]
    have h1 := scanLoop_dropScanned uuid uuid w.polls
      ((w.setUUID uuid).emitAll (uuidEvents w.bot.UUIDCallback uuid))
      ((w.setUUID uuid).emitAll (uuidEvents w.bot.UUIDCallback uuid)) rfl
    have h2 := scanLoop_dropScanned uuid uuid w'.polls
      ((w'.setUUID uuid).emitAll (uuidEvents w'.bot.UUIDCallback uuid))
      ((w.setUUID uuid).emitAll (uuidEvents w.bot.UUIDCallback uuid)) hinit.symm
    rw [h1, h2, hpolls]
  · rw [pushCheckLogin_eq_loop, pushCheckLogin_eq_loop]
    have h1 := pushLoop_dropScanned p p uuid uuid w.polls tip tip
      ((w.setUUID uuid).emitAll
        (uuidEvents (w.bot.UUIDCallback && !p.opt.withoutUUIDCallback) uuid))
      ((w.setUUID uuid).emitAll
        (uuidEvents (w.bot.UUIDCallback && !p.opt.withoutUUIDCallback) uuid)) rfl
    have h2 := pushLoop_dropScanned p p uuid uuid w'.polls tip tip
      ((w'.setUUID uuid).emitAll
        (uuidEvents (w'.bot.UUIDCallback && !p.opt.withoutUUIDCallback) uuid))
      ((w.setUUID uuid).emitAll
        (uuidEvents (w.bot.UUIDCallback && !p.opt.withoutUUIDCallback) uuid)) hinit.symm
    rw [h1, h2, hpolls]

/-- Witness for C5: the scripts `[Scanned, Wait, Scanned, Scanned, Success]` and
`[Wait, Success]` give the same returned value. -/
theorem C5_result_ignores_scanned_witness :
    (SacnLogin.checkLogin {} "u" (sampleWorld [answer LoginCode.StatusScanned [9],
        answer LoginCode.StatusWait [1], answer LoginCode.StatusScanned [2],
        answer LoginCode.StatusScanned [2], answer LoginCode.StatusSuccess [3]])).1 =
      (SacnLogin.checkLogin {} "u" (sampleWorld [answer LoginCode.StatusWait [1],
        answer LoginCode.StatusSuccess [3]])).1 ∧
    (plainPush.checkLogin "u" "1" (sampleWorld [answer LoginCode.StatusScanned [9],
        answer LoginCode.StatusWait [1], answer LoginCode.StatusScanned [2],
        answer LoginCode.StatusScanned [2], answer LoginCode.StatusSuccess [3]])).1 =
      (plainPush.checkLogin "u" "1" (sampleWorld [answer LoginCode.StatusWait [1],
        answer LoginCode.StatusSuccess [3]])).1 :=
  C5_result_ignores_scanned {} plainPush "u" "1"
    (sampleWorld [answer LoginCode.StatusScanned [9], answer LoginCode.StatusWait [1],
      answer LoginCode.StatusScanned [2], answer LoginCode.StatusScanned [2],
      answer LoginCode.StatusSuccess [3]])
    (sampleWorld [answer LoginCode.StatusWait [1], answer LoginCode.StatusSuccess [3]])
    rfl (by decide)

/-- Counterexample to C6: on `[Waiting, Scanned, Waiting, Success]` with
`HandleLogin` returning no error, the result is nil after 4 `CheckLogin` calls,
but `ScanCallBack` is not called once.  Under the default push options (scan
hook suppressed) `PushLogin.checkLogin` never invokes it although it is set;
and on a bot whose hooks are nil `SacnLogin.checkLogin` invokes neither
`ScanCallBack` nor `LoginCallBack`. -/
theorem C6_counterexample :
    ((defaultPush.checkLogin "u" "1" (sampleWorld (exampleScript [1] [2] [3] [4]))).1 =
        Outcome.returned none ∧
      (checkLoginCalls (defaultPush.checkLogin "u" "1"
        (sampleWorld (exampleScript [1] [2] [3] [4]))).2.trace).length = 4 ∧
      scanCallBackArgs (defaultPush.checkLogin "u" "1"
        (sampleWorld (exampleScript [1] [2] [3] [4]))).2.trace = []) ∧
    ((SacnLogin.checkLogin {} "u" hooklessWorld).1 = Outcome.returned none ∧
      (checkLoginCalls (SacnLogin.checkLogin {} "u" hooklessWorld).2.trace).length = 4 ∧
      scanCallBackArgs (SacnLogin.checkLogin {} "u" hooklessWorld).2.trace = [] ∧
      loginCallBackArgs (SacnLogin.checkLogin {} "u" hooklessWorld).2.trace = []) := by
  decide

/-- C6 (amended): on a script of `n` `StatusWait`/`StatusScanned` responses
followed by a `StatusSuccess` or `StatusTimeout` response, both `checkLogin`
functions return (they do not stay blocked), having issued exactly `n + 1`
`CheckLogin` calls, and leave what follows the terminal response unread.  In
particular, on `[Waiting, Scanned, Waiting, Success]` with `HandleLogin`
returning no error and the scan and success hooks set and not suppressed, the
result is nil, `ScanCallBack` is called once, `LoginCallBack` once, and 4
`CheckLogin` calls are issued. -/
theorem C6_terminates_after_terminal (s : SacnLogin) (p : PushLogin) (uuid tip : String)
    (w : World) (pre rest : List CheckLoginResult) (t : CheckLoginResponse)
    (hpre : ∀ r ∈ pre, r.isWaitOrScanned = true)
    (ht : t.Code = LoginCode.StatusSuccess ∨ t.Code = LoginCode.StatusTimeout)
    (hpolls : w.polls = pre ++ CheckLoginResult.ok t :: rest) :
    (((∃ err, (s.checkLogin uuid w).1 = Outcome.returned err) ∧
        (s.checkLogin uuid w).2.polls = rest ∧
        ∃ evs, (s.checkLogin uuid w).2.trace = w.trace ++ evs ∧
          (checkLoginCalls evs).length = pre.length + 1) ∧
      ((∃ err, (p.checkLogin uuid tip w).1 = Outcome.returned err) ∧
        (p.checkLogin uuid tip w).2.polls = rest ∧
        ∃ evs, (p.checkLogin uuid tip w).2.trace = w.trace ++ evs ∧
          (checkLoginCalls evs).length = pre.length + 1)) ∧
    (∀ (v : World) (r1 r2 r3 r4 : Raw), v.polls = exampleScript r1 r2 r3 r4 →
      v.bot.HandleLogin r4 = none → v.bot.ScanCallBack = true → v.bot.LoginCallBack = true →
      p.opt.withoutScanCallback = false → p.opt.withoutLoginCallback = false →
      ((s.checkLogin uuid v).1 = Outcome.returned none ∧
        ∃ evs, (s.checkLogin uuid v).2.trace = v.trace ++ evs ∧
          scanCallBackArgs evs = [r2] ∧ loginCallBackArgs evs = [r4] ∧
          (checkLoginCalls evs).length = 4) ∧
      ((p.checkLogin uuid tip v).1 = Outcome.returned none ∧
        ∃ evs, (p.checkLogin uuid tip v).2.trace = v.trace ++ evs ∧
          scanCallBackArgs evs = [r2] ∧ loginCallBackArgs evs = [r4] ∧
          (checkLoginCalls evs).length = 4)) := by
  constructor
  · have hpre' : ∀ r ∈ pre, r.isTerminal = false :=
      fun r hr => isTerminal_of_isWaitOrScanned r (hpre r hr)
    have ht' : (CheckLoginResult.ok t).isTerminal = true := by
      obtain ⟨code, raw⟩ := t
      rcases ht with h | h <;> simp only at h <;> subst h <;> rfl
    have hout : ∃ err, terminalOutcome w.bot (CheckLoginResult.ok t) = Outcome.returned err := by
      obtain ⟨code, raw⟩ := t
      rcases ht with h | h <;> simp only at h <;> subst h <;> exact ⟨_, rfl⟩
    rw [scanCheckLogin_run s uuid w pre rest _ hpre' ht' hpolls,
      pushCheckLogin_run p uuid tip w pre rest _ hpre' ht' hpolls]
    refine ⟨⟨hout, rfl, _, rfl, ?_⟩, ⟨hout, rfl, _, rfl, ?_⟩⟩
    · simp only [checkLoginCalls_append, checkLoginCalls_uuidEvents, List.nil_append,
        List.length_append, length_checkLoginCalls_pendingEvents]
      rw [← List.singleton_append, checkLoginCalls_append, checkLoginCalls_terminalEvents]
      simp [checkLoginCalls, Event.checkLoginArg]
    · simp only [checkLoginCalls_append, checkLoginCalls_uuidEvents, List.nil_append,
        List.length_append, length_checkLoginCalls_pendingEvents]
      rw [← List.singleton_append, checkLoginCalls_append, checkLoginCalls_terminalEvents]
      simp [checkLoginCalls, Event.checkLoginArg]
  · intro v r1 r2 r3 r4 hv hinit hscan hlogin hos hol
    have hpre' : ∀ r ∈ [answer LoginCode.StatusWait r1, answer LoginCode.StatusScanned r2,
        answer LoginCode.StatusWait r3], r.isTerminal = false := by
      intro r hr
      simp only [List.mem_cons, List.mem_singleton, List.not_mem_nil, or_false] at hr
      rcases hr with h | h | h <;> subst h <;> rfl
    have ht' : (answer LoginCode.StatusSuccess r4).isTerminal = true := rfl
    rw [scanCheckLogin_run s uuid v _ [] _ hpre' ht' hv,
      pushCheckLogin_run p uuid tip v _ [] _ hpre' ht' hv]
    refine ⟨⟨?_, _, rfl, ?_, ?_, ?_⟩, ⟨?_, _, rfl, ?_, ?_, ?_⟩⟩
    · simp [terminalOutcome, answer, hinit]
    · cases v.bot.UUIDCallback <;>
        simp [uuidEvents, pendingEvents, terminalEvents, answer, hinit, hscan, hlogin,
          CheckLoginResult.scannedRaw, scanCallBackArgs, Event.scanCallBackArg]
    · cases v.bot.UUIDCallback <;>
        simp [uuidEvents, pendingEvents, terminalEvents, answer, hinit, hscan, hlogin,
          CheckLoginResult.scannedRaw, loginCallBackArgs, Event.loginCallBackArg]
    · cases v.bot.UUIDCallback <;>
        simp [uuidEvents, pendingEvents, terminalEvents, answer, hinit, hscan, hlogin,
          CheckLoginResult.scannedRaw, checkLoginCalls, Event.checkLoginArg]
    · simp [terminalOutcome, answer, hinit]
    · cases v.bot.UUIDCallback <;> cases p.opt.withoutUUIDCallback <;>
        simp [uuidEvents, pendingEvents, terminalEvents, answer, hinit, hscan, hlogin, hos, hol,
          CheckLoginResult.scannedRaw, scanCallBackArgs, Event.scanCallBackArg]
    · cases v.bot.UUIDCallback <;> cases p.opt.withoutUUIDCallback <;>
        simp [uuidEvents, pendingEvents, terminalEvents, answer, hinit, hscan, hlogin, hos, hol,
          CheckLoginResult.scannedRaw, loginCallBackArgs, Event.loginCallBackArg]
    · cases v.bot.UUIDCallback <;> cases p.opt.withoutUUIDCallback <;>
        simp [uuidEvents, pendingEvents, terminalEvents, answer, hinit, hscan, hlogin, hos, hol,
          CheckLoginResult.scannedRaw, checkLoginCalls, Event.checkLoginArg]

/-- Witness for C6 (amended) on `[Waiting, Scanned, Waiting, Success]` with payloads
`[1]`, `[2]`, `[3]`, `[4]`. -/
theorem C6_terminates_after_terminal_witness :
    (SacnLogin.checkLogin {} "u" (sampleWorld (exampleScript [1] [2] [3] [4]))).2.polls = [] ∧
    (SacnLogin.checkLogin {} "u" (sampleWorld (exampleScript [1] [2] [3] [4]))).1 =
      Outcome.returned none ∧
    (plainPush.checkLogin "u" "1" (sampleWorld (exampleScript [1] [2] [3] [4]))).1 =
      Outcome.returned none :=
  have h := C6_terminates_after_terminal {} plainPush "u" "1"
    (sampleWorld (exampleScript [1] [2] [3] [4]))
    [answer LoginCode.StatusWait [1], answer LoginCode.StatusScanned [2],
      answer LoginCode.StatusWait [3]] []
    { Code := LoginCode.StatusSuccess, Raw := [4] } (by decide) (Or.inl rfl) rfl
  have h2 := h.2 (sampleWorld (exampleScript [1] [2] [3] [4])) [1] [2] [3] [4]
    rfl rfl rfl rfl rfl rfl
  ⟨h.1.1.2.1, h2.1.1, h2.2.1⟩

/-- C7: on a script made of `StatusWait`/`StatusScanned` responses followed by a
`CheckLogin` call that fails with the transport error `e`, both `checkLogin`
functions return exactly `e`; the failing call is the last event of the run (no
further `CheckLogin` call, the rest of the script is left unread), and the run
contains no `HandleLogin` call and no `LoginCallBack` invocation. -/
theorem C7_transport_error (s : SacnLogin) (p : PushLogin) (uuid tip : String)
    (w : World) (pre rest : List CheckLoginResult) (e : Error)
    (hpre : ∀ r ∈ pre, r.isWaitOrScanned = true)
    (hpolls : w.polls = pre ++ CheckLoginResult.error e :: rest) :
    ((s.checkLogin uuid w).1 = Outcome.returned (some e) ∧
      (s.checkLogin uuid w).2.polls = rest ∧
      ∃ evs, (s.checkLogin uuid w).2.trace = w.trace ++ evs ++ [Event.CheckLogin uuid "0"] ∧
        (checkLoginCalls evs).length = pre.length ∧
        handleLoginArgs evs = [] ∧ loginCallBackArgs evs = []) ∧
    ((p.checkLogin uuid tip w).1 = Outcome.returned (some e) ∧
      (p.checkLogin uuid tip w).2.polls = rest ∧
      ∃ evs, (p.checkLogin uuid tip w).2.trace =
          w.trace ++ evs ++ [Event.CheckLogin uuid (tipAfter tip pre)] ∧
        (checkLoginCalls evs).length = pre.length ∧
        handleLoginArgs evs = [] ∧ loginCallBackArgs evs = []) := by
  have hpre' : ∀ r ∈ pre, r.isTerminal = false :=
    fun r hr => isTerminal_of_isWaitOrScanned r (hpre r hr)
  have ht : (CheckLoginResult.error e).isTerminal = true := rfl
  rw [scanCheckLogin_run s uuid w pre rest _ hpre' ht hpolls,
    pushCheckLogin_run p uuid tip w pre rest _ hpre' ht hpolls]
  refine ⟨⟨rfl, rfl, uuidEvents w.bot.UUIDCallback uuid ++
      pendingEvents w.bot.ScanCallBack uuid "0" pre, ?_, ?_, ?_, ?_⟩,
    ⟨rfl, rfl, uuidEvents (w.bot.UUIDCallback && !p.opt.withoutUUIDCallback) uuid ++
      pendingEvents (w.bot.ScanCallBack && !p.opt.withoutScanCallback) uuid tip pre,
      ?_, ?_, ?_, ?_⟩⟩
  · simp [terminalEvents, World.emitAll, World.setUUID, World.setPolls]
  · simp [checkLoginCalls_append, checkLoginCalls_uuidEvents,
      length_checkLoginCalls_pendingEvents]
  · simp [handleLoginArgs_append, handleLoginArgs_uuidEvents, handleLoginArgs_pendingEvents]
  · simp [loginCallBackArgs_append, loginCallBackArgs_uuidEvents,
      loginCallBackArgs_pendingEvents]
  · simp [terminalEvents, World.emitAll, World.setUUID, World.setPolls]
  · simp [checkLoginCalls_append, checkLoginCalls_uuidEvents,
      length_checkLoginCalls_pendingEvents]
  · simp [handleLoginArgs_append, handleLoginArgs_uuidEvents, handleLoginArgs_pendingEvents]
  · simp [loginCallBackArgs_append, loginCallBackArgs_uuidEvents,
      loginCallBackArgs_pendingEvents]

/-- Witness for C7: the third call fails with a network error while a success
answer is still in the script. -/
theorem C7_transport_error_witness :
    (SacnLogin.checkLogin {} "u" (sampleWorld (waitScanned ++
        CheckLoginResult.error (Error.other "network") ::
          [answer LoginCode.StatusSuccess [3]]))).1 =
      Outcome.returned (some (Error.other "network")) ∧
    (plainPush.checkLogin "u" "1" (sampleWorld (waitScanned ++
        CheckLoginResult.error (Error.other "network") ::
          [answer LoginCode.StatusSuccess [3]]))).2.polls =
      [answer LoginCode.StatusSuccess [3]] :=
  have h := C7_transport_error {} plainPush "u" "1"
    (sampleWorld (waitScanned ++ CheckLoginResult.error (Error.other "network") ::
      [answer LoginCode.StatusSuccess [3]]))
    waitScanned [answer LoginCode.StatusSuccess [3]] (Error.other "network") (by decide) rfl
  ⟨h.1.1, h.2.2.1⟩

/-- Counterexample to C8: on the script `[unknown code "999", Success]` both
`checkLogin` functions return nil after a second `CheckLogin` call; the unknown
code did not make them return a failure. -/
theorem C8_counterexample :
    (SacnLogin.checkLogin {} "u" (sampleWorld unknownThenSuccess)).1 = Outcome.returned none ∧
    checkLoginCalls (SacnLogin.checkLogin {} "u" (sampleWorld unknownThenSuccess)).2.trace =
      [("u", "0"), ("u", "0")] ∧
    (plainPush.checkLogin "u" "1" (sampleWorld unknownThenSuccess)).1 = Outcome.returned none ∧
    checkLoginCalls (plainPush.checkLogin "u" "1" (sampleWorld unknownThenSuccess)).2.trace =
      [("u", "1"), ("u", "0")] := by
  decide

/-- C8 (amended): a response whose status code is none of the four constants is
not an error for the loops.  When it is reached, both `checkLogin` functions
handle it exactly as a `StatusWait` response (the whole run equals the run on
the script with that code replaced by `StatusWait`) and they go on polling: at
least one more `CheckLogin` call follows it. -/
theorem C8_unknown_code_is_skipped (s : SacnLogin) (p : PushLogin) (uuid tip : String)
    (w : World) (pre rest : List CheckLoginResult) (c : String) (raw : Raw)
    (hpre : ∀ r ∈ pre, r.isTerminal = false)
    (hpolls : w.polls = pre ++ CheckLoginResult.ok ⟨LoginCode.other c, raw⟩ :: rest) :
    (s.checkLogin uuid w =
        s.checkLogin uuid
          (w.setPolls (pre ++ CheckLoginResult.ok ⟨LoginCode.StatusWait, raw⟩ :: rest)) ∧
      ∃ evs, (s.checkLogin uuid w).2.trace = w.trace ++ evs ∧
        pre.length + 2 ≤ (checkLoginCalls evs).length) ∧
    (p.checkLogin uuid tip w =
        p.checkLogin uuid tip
          (w.setPolls (pre ++ CheckLoginResult.ok ⟨LoginCode.StatusWait, raw⟩ :: rest)) ∧
      ∃ evs, (p.checkLogin uuid tip w).2.trace = w.trace ++ evs ∧
        pre.length + 2 ≤ (checkLoginCalls evs).length) := by
  have hunk : ∀ r ∈ pre ++ [CheckLoginResult.ok ⟨LoginCode.other c, raw⟩],
      r.isTerminal = false := isTerminal_false_append_singleton pre _ hpre rfl
  have hwait : ∀ r ∈ pre ++ [CheckLoginResult.ok ⟨LoginCode.StatusWait, raw⟩],
      r.isTerminal = false := isTerminal_false_append_singleton pre _ hpre rfl
  have hpolls1 : w.polls = (pre ++ [CheckLoginResult.ok ⟨LoginCode.other c, raw⟩]) ++ rest := by
    rw [hpolls]; simp
  have hpolls2 : (w.setPolls (pre ++ CheckLoginResult.ok ⟨LoginCode.StatusWait, raw⟩ :: rest)).polls
      = (pre ++ [CheckLoginResult.ok ⟨LoginCode.StatusWait, raw⟩]) ++ rest := by
    simp [World.setPolls]
  constructor
  · rw [scanCheckLogin_pending s uuid w _ rest hunk hpolls1,
      scanCheckLogin_pending s uuid _ _ rest hwait hpolls2, pendingEvents_append_other]
    refine ⟨?_, ?_⟩
    · exact (scanLoop_setPolls uuid rest _ _).symm
    · obtain ⟨evs, hevs⟩ := scanLoop_trace uuid rest ((w.setUUID uuid).emitAll
        (uuidEvents w.bot.UUIDCallback uuid ++ pendingEvents w.bot.ScanCallBack uuid "0"
          (pre ++ [CheckLoginResult.ok ⟨LoginCode.StatusWait, raw⟩])))
      rw [hevs]
      refine ⟨_, by simp only [World.emitAll, World.setUUID, List.append_assoc]; rfl, ?_⟩
      simp only [checkLoginCalls_append, checkLoginCalls_uuidEvents, List.nil_append,
        List.length_append, length_checkLoginCalls_pendingEvents, List.length_singleton]
      rw [← List.singleton_append, checkLoginCalls_append, List.length_append]
      simp [checkLoginCalls, Event.checkLoginArg]
      omega
  · rw [pushCheckLogin_pending p uuid tip w _ rest hunk hpolls1,
      pushCheckLogin_pending p uuid tip _ _ rest hwait hpolls2, pendingEvents_append_other,
      tipAfter_append_singleton, tipAfter_append_singleton]
    refine ⟨?_, ?_⟩
    · exact (pushLoop_setPolls p uuid _ rest _ _).symm
    · obtain ⟨evs, hevs⟩ := pushLoop_trace p uuid rest (nextTip tip) ((w.setUUID uuid).emitAll
        (uuidEvents (w.bot.UUIDCallback && !p.opt.withoutUUIDCallback) uuid ++
          pendingEvents (w.bot.ScanCallBack && !p.opt.withoutScanCallback) uuid tip
            (pre ++ [CheckLoginResult.ok ⟨LoginCode.StatusWait, raw⟩])))
      rw [hevs]
      refine ⟨_, by simp only [World.emitAll, World.setUUID, List.append_assoc]; rfl, ?_⟩
      simp only [checkLoginCalls_append, checkLoginCalls_uuidEvents, List.nil_append,
        List.length_append, length_checkLoginCalls_pendingEvents, List.length_singleton]
      rw [← List.singleton_append, checkLoginCalls_append, List.length_append]
      simp [checkLoginCalls, Event.checkLoginArg]
      omega

/-- Witness for C8 (amended) on the script `[unknown code "999", Success]`. -/
theorem C8_unknown_code_is_skipped_witness :
    (SacnLogin.checkLogin {} "u" (sampleWorld unknownThenSuccess) =
        SacnLogin.checkLogin {} "u" ((sampleWorld unknownThenSuccess).setPolls
          ([] ++ CheckLoginResult.ok ⟨LoginCode.StatusWait, [1]⟩ ::
            [answer LoginCode.StatusSuccess [2]])) ∧
      ∃ evs, (SacnLogin.checkLogin {} "u" (sampleWorld unknownThenSuccess)).2.trace =
          [] ++ evs ∧ 0 + 2 ≤ (checkLoginCalls evs).length) ∧
    (plainPush.checkLogin "u" "1" (sampleWorld unknownThenSuccess) =
        plainPush.checkLogin "u" "1" ((sampleWorld unknownThenSuccess).setPolls
          ([] ++ CheckLoginResult.ok ⟨LoginCode.StatusWait, [1]⟩ ::
            [answer LoginCode.StatusSuccess [2]])) ∧
      ∃ evs, (plainPush.checkLogin "u" "1" (sampleWorld unknownThenSuccess)).2.trace =
          [] ++ evs ∧ 0 + 2 ≤ (checkLoginCalls evs).length) :=
  C8_unknown_code_is_skipped {} plainPush "u" "1" (sampleWorld unknownThenSuccess)
    [] [answer LoginCode.StatusSuccess [2]] "999" [1] (by decide) rfl

/-- C9: for `HotLogin` with `withRetry = true`, when the session reload fails,
`HotLogin.Login` returns exactly what a standalone `SacnLogin.Login` returns
on the same bot and poll script, leaves the same identifier on the bot and the
same unread script, and its events are the `reload` call followed by exactly
the events of the standalone scan login (same calls, same hook invocations);
`WebInit` is not among them. -/
theorem C9_hot_retry_equals_scan (h : HotLogin) (s : SacnLogin) (w : World) (e : Error)
    (hretry : h.opt.withRetry = true)
    (hreload : w.bot.reload h.storage = some e) :
    (h.Login w).1 = (s.Login w).1 ∧
    (h.Login w).2.bot.uuid = (s.Login w).2.bot.uuid ∧
    (h.Login w).2.polls = (s.Login w).2.polls ∧
    ∃ evs, (s.Login w).2.trace = w.trace ++ evs ∧
      (h.Login w).2.trace = w.trace ++ Event.reload h.storage :: evs ∧
      Event.WebInit ∉ evs := by
  have hhot : h.Login w =
      s.Login (w.fresh.rebase h.storage (w.trace ++ [Event.reload h.storage])) := by
    simp [HotLogin.Login, HotLogin.login, HotLogin.hotLoginInit, World.setStorage, World.emit,
      hreload, hretry, World.rebase, World.fresh]
  have hscan : s.Login w = s.Login (w.fresh.rebase w.bot.hotReloadStorage w.trace) := by
    rw [World.rebase_fresh]
  rw [hhot, hscan, scanLogin_rebase, scanLogin_rebase]
  obtain ⟨evs, hevs, hall⟩ := scanLogin_events s w.fresh
  refine ⟨rfl, rfl, rfl, evs, ?_, ?_, ?_⟩
  · simp only [World.rebase, hevs]
    simp [World.fresh]
  · simp only [World.rebase, hevs]
    simp [World.fresh]
  · intro hmem
    have := hall _ hmem
    simp [Event.isScanEvent] at this

/-- Witness for C9: the reload fails, the fallback scan login runs through
`[Waiting, Scanned, Waiting, Success]` and succeeds. -/
theorem C9_hot_retry_equals_scan_witness :
    (retryHot.Login brokenReloadWorld).1 = Outcome.returned none ∧
    (retryHot.Login brokenReloadWorld).1 = (SacnLogin.Login {} brokenReloadWorld).1 :=
  ⟨by decide,
    (C9_hot_retry_equals_scan retryHot {} brokenReloadWorld
      (Error.other "reload failed") rfl rfl).1⟩

/-- C10 (code evaluated at the failing inputs): `PushLogin.Login` with
`withRetry = true` returns the push failure itself, without any scan login (no
`GetLoginUUID` call), when the reload fails, when `WebWxPushLogin` fails at the
transport level and when the push response carries an application error,
although a scan login on the same world would succeed.  Only a failure of the
polling phase (here a `StatusTimeout`) triggers the fallback. -/
theorem C10_push_retry_skips_fallback_before_polling :
    ((retryPush.Login brokenReloadWorld).1 = Outcome.returned (some (Error.other "reload failed")) ∧
      (retryPush.Login brokenReloadWorld).2.trace = [Event.reload (some 1)] ∧
      (SacnLogin.Login {} brokenReloadWorld).1 = Outcome.returned none) ∧
    ((retryPush.Login pushTransportErrorWorld).1 =
        Outcome.returned (some (Error.other "network")) ∧
      (retryPush.Login pushTransportErrorWorld).2.trace =
        [Event.reload (some 1), Event.WebWxPushLogin 7] ∧
      (SacnLogin.Login {} pushTransportErrorWorld).1 = Outcome.returned none) ∧
    ((retryPush.Login pushRejectedWorld).1 = Outcome.returned (some (Error.other "rejected")) ∧
      (retryPush.Login pushRejectedWorld).2.trace =
        [Event.reload (some 1), Event.WebWxPushLogin 7] ∧
      (SacnLogin.Login {} pushRejectedWorld).1 = Outcome.returned none) ∧
    ((retryPush.Login (sampleWorld (answer LoginCode.StatusTimeout [0] ::
        exampleScript [1] [2] [3] [4]))).1 = Outcome.returned none ∧
      (retryPush.Login (sampleWorld (answer LoginCode.StatusTimeout [0] ::
        exampleScript [1] [2] [3] [4]))).2.trace =
        [Event.reload (some 1), Event.WebWxPushLogin 7, Event.CheckLogin "push-uuid" "1",
          Event.GetLoginUUID, Event.UUIDCallback "scan-uuid",
          Event.CheckLogin "scan-uuid" "0", Event.CheckLogin "scan-uuid" "0",
          Event.ScanCallBack [2], Event.CheckLogin "scan-uuid" "0",
          Event.CheckLogin "scan-uuid" "0", Event.HandleLogin [4],
          Event.LoginCallBack [4]]) := by
  decide

/-- C11: the fallback is single-shot.  For `HotLogin.Login` and
`PushLogin.Login` with `withRetry = true`, the events of one `Login` run contain
at most one `GetLoginUUID` call; and when the strategy's own attempt has failed
and the fallback `SacnLogin.Login` returns the error `e`, `Login` returns
exactly `e` and ends in the very world the fallback ends in (nothing is run
after it). -/
theorem C11_fallback_single_shot (h : HotLogin) (p : PushLogin) (s : SacnLogin) (w : World)
    (hhot : h.opt.withRetry = true) (hpush : p.opt.withRetry = true) :
    (∃ evs, (h.Login w).2.trace = w.trace ++ evs ∧ evs.count Event.GetLoginUUID ≤ 1) ∧
    (∃ evs, (p.Login w).2.trace = w.trace ++ evs ∧ evs.count Event.GetLoginUUID ≤ 1) ∧
    (∀ e0 e, (h.login w).1 = some e0 →
      (s.Login (h.login w).2).1 = Outcome.returned (some e) →
      (h.Login w).1 = Outcome.returned (some e) ∧ (h.Login w).2 = (s.Login (h.login w).2).2) ∧
    (∀ resp e0 e, w.bot.reload p.storage = none →
      w.bot.Caller.WebWxPushLogin w.bot.WxUin = PushLoginResult.ok resp → resp.Err = none →
      (p.checkLogin resp.UUID "1" (p.pollStart w)).1 = Outcome.returned (some e0) →
      (s.Login (p.checkLogin resp.UUID "1" (p.pollStart w)).2).1 = Outcome.returned (some e) →
      (p.Login w).1 = Outcome.returned (some e) ∧
        (p.Login w).2 = (s.Login (p.checkLogin resp.UUID "1" (p.pollStart w)).2).2) := by
  refine ⟨?_, ?_, ?_, ?_⟩
  · cases hl : (h.login w).1 with
    | none =>
      rw [hotLogin_success h w hl]
      cases hr : w.bot.reload h.storage with
      | some e0 =>
        rw [hotLogin_reload_error h w e0 hr] at hl
        cases hl
      | none =>
        rw [hotLogin_reload_ok h w hr]
        exact ⟨[Event.reload h.storage, Event.WebInit],
          by simp [World.emit, World.setStorage], by simp⟩
    | some e0 =>
      rw [hotLogin_failure_retry h s w e0 hhot hl]
      obtain ⟨evs, hevs, hcount⟩ := scanLogin_count s (h.login w).2
      cases hr : w.bot.reload h.storage with
      | some e1 =>
        rw [hotLogin_reload_error h w e1 hr] at hevs ⊢
        refine ⟨Event.reload h.storage :: evs, ?_, ?_⟩
        · rw [hevs]; simp [World.emit, World.setStorage]
        · rw [List.count_cons_of_ne (by simp), hcount]
      | none =>
        rw [hotLogin_reload_ok h w hr] at hevs ⊢
        refine ⟨Event.reload h.storage :: Event.WebInit :: evs, ?_, ?_⟩
        · rw [hevs]; simp [World.emit, World.setStorage]
        · rw [List.count_cons_of_ne (by simp), List.count_cons_of_ne (by simp), hcount]
  · cases hreload : w.bot.reload p.storage with
    | some e =>
      rw [pushLogin_reload_error p w e hreload]
      exact ⟨[Event.reload p.storage], rfl, by simp⟩
    | none =>
      cases hp : w.bot.Caller.WebWxPushLogin w.bot.WxUin with
      | error e =>
        rw [pushLogin_transport_error p w e hreload hp]
        exact ⟨[Event.reload p.storage, Event.WebWxPushLogin w.bot.WxUin],
          by simp [PushLogin.pollStart, World.emit, World.setStorage], by simp⟩
      | ok resp =>
        cases herr : resp.Err with
        | some e =>
          rw [pushLogin_app_error p w resp e hreload hp herr]
          exact ⟨[Event.reload p.storage, Event.WebWxPushLogin w.bot.WxUin],
            by simp [PushLogin.pollStart, World.emit, World.setStorage], by simp⟩
        | none =>
          obtain ⟨evs, hevs, hcount⟩ := pushCheckLogin_count p resp.UUID "1" (p.pollStart w)
          have hstart : (p.pollStart w).trace =
              w.trace ++ [Event.reload p.storage, Event.WebWxPushLogin w.bot.WxUin] := by
            simp [PushLogin.pollStart, World.emit, World.setStorage]
          by_cases hfb : ∃ e,
              (p.checkLogin resp.UUID "1" (p.pollStart w)).1 = Outcome.returned (some e)
          · obtain ⟨e, hfail⟩ := hfb
            rw [pushLogin_fallback p s w resp e hreload hp herr hpush hfail]
            obtain ⟨evs', hevs', hcount'⟩ :=
              scanLogin_count s (p.checkLogin resp.UUID "1" (p.pollStart w)).2
            refine ⟨Event.reload p.storage :: Event.WebWxPushLogin w.bot.WxUin :: (evs ++ evs'),
              ?_, ?_⟩
            · rw [hevs', hevs, hstart]; simp
            · rw [List.count_cons_of_ne (by simp), List.count_cons_of_ne (by simp),
                List.count_append, hcount, hcount']
          · rw [pushLogin_no_fallback p w resp hreload hp herr
              (Or.inr (fun e he => hfb ⟨e, he⟩))]
            refine ⟨Event.reload p.storage :: Event.WebWxPushLogin w.bot.WxUin :: evs, ?_, ?_⟩
            · rw [hevs, hstart]; simp
            · rw [List.count_cons_of_ne (by simp), List.count_cons_of_ne (by simp), hcount]
              exact Nat.zero_le _
  · intro e0 e hl hs
    rw [hotLogin_failure_retry h s w e0 hhot hl]
    exact ⟨hs, rfl⟩
  · intro resp e0 e hreload hp herr hfail hs
    rw [pushLogin_fallback p s w resp e0 hreload hp herr hpush hfail]
    exact ⟨hs, rfl⟩

/-- Witness for C11: a hot login whose reload fails and a push login whose
polling times out, both in front of a failing identifier request. -/
theorem C11_fallback_single_shot_witness :
    (retryHot.Login fallbackFailsWorld).1 = Outcome.returned (some (Error.other "no uuid")) ∧
    (retryPush.Login pushTimeoutNoScanWorld).1 =
      Outcome.returned (some (Error.other "no uuid")) :=
  ⟨((C11_fallback_single_shot retryHot retryPush {} fallbackFailsWorld rfl rfl).2.2.1
      (Error.other "reload failed") (Error.other "no uuid") rfl rfl).1,
    ((C11_fallback_single_shot retryHot retryPush {} pushTimeoutNoScanWorld rfl rfl).2.2.2
      { Err := none, UUID := "push-uuid" } Error.ErrLoginTimeout (Error.other "no uuid")
      rfl rfl rfl rfl rfl).1⟩

/-- C13: in `PushLogin.Login`, once the reload and the push request have
succeeded, the polling phase `checkLogin(bot, resp.UUID, "1")` runs: its events
`evs` follow the `reload` and `WebWxPushLogin` calls in the log of `Login`, and
its `CheckLogin` calls all carry the identifier returned by `WebWxPushLogin`,
the first one with tip `"1"` and every later one with tip `"0"`, however many
there are.  What `Login` logs after the polling phase (`rest`) is empty without
`withRetry`. -/
theorem C13_push_poll_tips (p : PushLogin) (w : World) (resp : PushLoginResponse)
    (hreload : w.bot.reload p.storage = none)
    (hpush : w.bot.Caller.WebWxPushLogin w.bot.WxUin = PushLoginResult.ok resp)
    (herr : resp.Err = none) :
    ∃ evs rest k,
      (p.checkLogin resp.UUID "1" (p.pollStart w)).2.trace =
        w.trace ++ [Event.reload p.storage, Event.WebWxPushLogin w.bot.WxUin] ++ evs ∧
      (p.Login w).2.trace =
        w.trace ++ [Event.reload p.storage, Event.WebWxPushLogin w.bot.WxUin] ++ evs ++ rest ∧
      checkLoginCalls evs = (resp.UUID, "1") :: List.replicate k (resp.UUID, "0") ∧
      (p.opt.withRetry = false → rest = []) := by
  obtain ⟨k, hk⟩ := checkLoginCalls_loopEvents (p.pollStart w).bot
    ((p.pollStart w).bot.ScanCallBack && !p.opt.withoutScanCallback)
    ((p.pollStart w).bot.LoginCallBack && !p.opt.withoutLoginCallback) resp.UUID
    (p.pollStart w).polls "1"
  have htrace : (p.checkLogin resp.UUID "1" (p.pollStart w)).2.trace =
      w.trace ++ [Event.reload p.storage, Event.WebWxPushLogin w.bot.WxUin] ++
        (uuidEvents ((p.pollStart w).bot.UUIDCallback && !p.opt.withoutUUIDCallback) resp.UUID ++
          loopEvents (p.pollStart w).bot
            ((p.pollStart w).bot.ScanCallBack && !p.opt.withoutScanCallback)
            ((p.pollStart w).bot.LoginCallBack && !p.opt.withoutLoginCallback) resp.UUID "1"
            (p.pollStart w).polls) := by
    rw [pushCheckLogin_full]
    simp [World.emitAll, World.setUUID, World.setPolls, PushLogin.pollStart, World.emit,
      World.setStorage]
  have hcalls : checkLoginCalls
      (uuidEvents ((p.pollStart w).bot.UUIDCallback && !p.opt.withoutUUIDCallback) resp.UUID ++
        loopEvents (p.pollStart w).bot
          ((p.pollStart w).bot.ScanCallBack && !p.opt.withoutScanCallback)
          ((p.pollStart w).bot.LoginCallBack && !p.opt.withoutLoginCallback) resp.UUID "1"
          (p.pollStart w).polls) = (resp.UUID, "1") :: List.replicate k (resp.UUID, "0") := by
    rw [checkLoginCalls_append, checkLoginCalls_uuidEvents, List.nil_append, hk, nextTip_one]
  by_cases hfb : p.opt.withRetry = true ∧
      ∃ e, (p.checkLogin resp.UUID "1" (p.pollStart w)).1 = Outcome.returned (some e)
  · obtain ⟨hretry, e, hfail⟩ := hfb
    obtain ⟨rest, hrest, -⟩ := scanLogin_events {}
      (p.checkLogin resp.UUID "1" (p.pollStart w)).2
    refine ⟨_, rest, k, htrace, ?_, hcalls, ?_⟩
    · rw [pushLogin_fallback p {} w resp e hreload hpush herr hretry hfail, hrest, htrace]
    · intro hno
      rw [hno] at hretry
      cases hretry
  · have hno : p.opt.withRetry = false ∨
        ∀ e, (p.checkLogin resp.UUID "1" (p.pollStart w)).1 ≠ Outcome.returned (some e) := by
      cases hr : p.opt.withRetry
      · exact Or.inl rfl
      · exact Or.inr (fun e he => hfb ⟨hr, e, he⟩)
    refine ⟨_, [], k, htrace, ?_, hcalls, fun _ => rfl⟩
    rw [pushLogin_no_fallback p w resp hreload hpush herr hno, htrace, List.append_nil]

/-- Witness for C13 on `[Waiting, Scanned, Waiting, Success]`: four polls, the
first with tip `"1"`. -/
theorem C13_push_poll_tips_witness :
    ∃ evs rest k,
      (plainPush.checkLogin "push-uuid" "1"
          (plainPush.pollStart (sampleWorld (exampleScript [1] [2] [3] [4])))).2.trace =
        [] ++ [Event.reload (some 1), Event.WebWxPushLogin 7] ++ evs ∧
      (plainPush.Login (sampleWorld (exampleScript [1] [2] [3] [4]))).2.trace =
        [] ++ [Event.reload (some 1), Event.WebWxPushLogin 7] ++ evs ++ rest ∧
      checkLoginCalls evs = ("push-uuid", "1") :: List.replicate k ("push-uuid", "0") ∧
      (plainPush.opt.withRetry = false → rest = []) :=
  C13_push_poll_tips plainPush (sampleWorld (exampleScript [1] [2] [3] [4]))
    { Err := none, UUID := "push-uuid" } rfl rfl rfl

/-- C14: `SacnLogin.Login`, from any world (whatever identifier the bot held).
When `GetLoginUUID` returns the identifier `u`: the run's events are the
identifier request, then the `UUIDCallback` invocation on `u` if the hook is
set, then a first `CheckLogin` call and the rest of the polling; `UUIDCallback`
is not invoked again, every `CheckLogin` call carries `u` and tip `"0"`, and
`bot.uuid` ends as `u`.  When `GetLoginUUID` returns the error `e`: `Login`
returns `e`, `bot.uuid` is unchanged, and the only event is the identifier
request (no hook, no `CheckLogin` call). -/
theorem C14_scan_login_identifier (s : SacnLogin) (w : World) :
    (∀ u, w.bot.Caller.GetLoginUUID = UUIDResult.ok u →
      (s.Login w).2.bot.uuid = u ∧
      ∃ evs k, (s.Login w).2.trace =
          w.trace ++ Event.GetLoginUUID ::
            ((if w.bot.UUIDCallback then [Event.UUIDCallback u] else []) ++
              Event.CheckLogin u "0" :: evs) ∧
        uuidCallbackArgs evs = [] ∧
        checkLoginCalls evs = List.replicate k (u, "0")) ∧
    (∀ e, w.bot.Caller.GetLoginUUID = UUIDResult.error e →
      (s.Login w).1 = Outcome.returned (some e) ∧
      (s.Login w).2.bot.uuid = w.bot.uuid ∧
      (s.Login w).2.polls = w.polls ∧
      (s.Login w).2.trace = w.trace ++ [Event.GetLoginUUID]) := by
  constructor
  · intro u hu
    rw [scanLogin_ok s w u hu, scanCheckLogin_full]
    refine ⟨rfl, ?_⟩
    have hall := isPollEvent_loopEvents (w.emit Event.GetLoginUUID).bot
      (w.emit Event.GetLoginUUID).bot.ScanCallBack (w.emit Event.GetLoginUUID).bot.LoginCallBack
      u (w.emit Event.GetLoginUUID).polls "0"
    obtain ⟨k, hk⟩ := checkLoginCalls_loopEvents (w.emit Event.GetLoginUUID).bot
      (w.emit Event.GetLoginUUID).bot.ScanCallBack (w.emit Event.GetLoginUUID).bot.LoginCallBack
      u (w.emit Event.GetLoginUUID).polls "0"
    obtain ⟨evs, hevs⟩ := loopEvents_head (w.emit Event.GetLoginUUID).bot
      (w.emit Event.GetLoginUUID).bot.ScanCallBack (w.emit Event.GetLoginUUID).bot.LoginCallBack
      u (w.emit Event.GetLoginUUID).polls "0"
    rw [hevs] at hall hk
    refine ⟨evs, k, ?_, ?_, ?_⟩
    · rw [hevs]
      simp [World.emitAll, World.setUUID, World.setPolls, World.emit, uuidEvents]
    · exact uuidCallbackArgs_of_isPollEvent evs
        (fun e he => hall e (List.mem_cons_of_mem _ he))
    · rw [checkLoginCalls_cons_checkLogin, nextTip_zero] at hk
      exact List.cons.inj hk |>.2
  · intro e he
    rw [scanLogin_error s w e he]
    exact ⟨rfl, rfl, rfl, rfl⟩

/-- Witness for C14: one world where the identifier `"scan-uuid"` is issued and
one where the request fails. -/
theorem C14_scan_login_identifier_witness :
    (SacnLogin.Login {} (sampleWorld (exampleScript [1] [2] [3] [4]))).2.bot.uuid = "scan-uuid" ∧
    (SacnLogin.Login {} noIdentifierWorld).1 = Outcome.returned (some (Error.other "no uuid")) ∧
    (SacnLogin.Login {} noIdentifierWorld).2.bot.uuid = "old" :=
  ⟨((C14_scan_login_identifier {} (sampleWorld (exampleScript [1] [2] [3] [4]))).1
      "scan-uuid" rfl).1,
    ((C14_scan_login_identifier {} noIdentifierWorld).2 (Error.other "no uuid") rfl).1,
    ((C14_scan_login_identifier {} noIdentifierWorld).2 (Error.other "no uuid") rfl).2.1⟩

/-- C15: `HotLogin.Login` with `withRetry = false` attaches the configured
storage, calls `reload`, and then either returns the reload error (the only
event is the `reload` call, `WebInit` is not called) or calls `WebInit` and
returns its result.  In both cases `bot.uuid` and the poll script are
untouched and none of the run's events is an identifier request, a poll, a
`HandleLogin` call or a hook invocation. -/
theorem C15_hot_login_without_retry (h : HotLogin) (w : World)
    (hretry : h.opt.withRetry = false) :
    (∀ e, w.bot.reload h.storage = some e →
      (h.Login w).1 = Outcome.returned (some e) ∧
      (h.Login w).2.trace = w.trace ++ [Event.reload h.storage]) ∧
    (w.bot.reload h.storage = none →
      (h.Login w).1 = Outcome.returned w.bot.WebInit ∧
      (h.Login w).2.trace = w.trace ++ [Event.reload h.storage, Event.WebInit]) ∧
    (h.Login w).2.bot.hotReloadStorage = h.storage ∧
    (h.Login w).2.bot.uuid = w.bot.uuid ∧
    (h.Login w).2.polls = w.polls ∧
    ∃ evs, (h.Login w).2.trace = w.trace ++ evs ∧ ∀ e ∈ evs, e.isScanEvent = false := by
  rw [hotLogin_no_retry h w hretry]
  cases hr : w.bot.reload h.storage with
  | some e0 =>
    rw [hotLogin_reload_error h w e0 hr]
    refine ⟨?_, ?_, rfl, rfl, rfl, [Event.reload h.storage], rfl, ?_⟩
    · intro e he
      cases he
      exact ⟨rfl, rfl⟩
    · intro hn; cases hn
    · intro e he
      rw [List.mem_singleton.mp he]; rfl
  | none =>
    rw [hotLogin_reload_ok h w hr]
    refine ⟨?_, ?_, rfl, rfl, rfl, [Event.reload h.storage, Event.WebInit], ?_, ?_⟩
    · intro e he; cases he
    · intro _
      refine ⟨rfl, ?_⟩
      simp [World.emit, World.setStorage]
    · simp [World.emit, World.setStorage]
    · intro e he
      simp only [List.mem_cons, List.mem_singleton, List.not_mem_nil, or_false] at he
      rcases he with h1 | h1 <;> subst h1 <;> rfl

/-- Witness for C15: without fallback a failing reload is returned as is. -/
theorem C15_hot_login_without_retry_witness :
    (plainHot.Login brokenReloadWorld).1 = Outcome.returned (some (Error.other "reload failed")) ∧
    (plainHot.Login brokenReloadWorld).2.trace = [] ++ [Event.reload (some 1)] ∧
    (plainHot.Login brokenReloadWorld).2.bot.uuid = "" :=
  have h := C15_hot_login_without_retry plainHot brokenReloadWorld rfl
  ⟨(h.1 (Error.other "reload failed") rfl).1, (h.1 (Error.other "reload failed") rfl).2,
    h.2.2.2.1⟩

/-- C16: `PushLogin.Login` with `withRetry = false` returns a reload error, a
`WebWxPushLogin` transport error and an application-level error of the push
response (`resp.Err()`) unchanged, at once: the run's events are the `reload`
call, followed in the last two cases by the `WebWxPushLogin` call, and nothing
else (no `CheckLogin` call, no hook, no `HandleLogin`); `bot.uuid` and the poll
script are untouched. -/
theorem C16_push_errors_without_retry (p : PushLogin) (w : World)
    (_hretry : p.opt.withRetry = false) :
    (∀ resp e, w.bot.reload p.storage = none →
      w.bot.Caller.WebWxPushLogin w.bot.WxUin = PushLoginResult.ok resp → resp.Err = some e →
      (p.Login w).1 = Outcome.returned (some e) ∧
      (p.Login w).2.trace =
        w.trace ++ [Event.reload p.storage, Event.WebWxPushLogin w.bot.WxUin] ∧
      (p.Login w).2.bot.uuid = w.bot.uuid ∧ (p.Login w).2.polls = w.polls) ∧
    (∀ e, w.bot.reload p.storage = some e →
      (p.Login w).1 = Outcome.returned (some e) ∧
      (p.Login w).2.trace = w.trace ++ [Event.reload p.storage] ∧
      (p.Login w).2.bot.uuid = w.bot.uuid ∧ (p.Login w).2.polls = w.polls) ∧
    (∀ e, w.bot.reload p.storage = none →
      w.bot.Caller.WebWxPushLogin w.bot.WxUin = PushLoginResult.error e →
      (p.Login w).1 = Outcome.returned (some e) ∧
      (p.Login w).2.trace =
        w.trace ++ [Event.reload p.storage, Event.WebWxPushLogin w.bot.WxUin] ∧
      (p.Login w).2.bot.uuid = w.bot.uuid ∧ (p.Login w).2.polls = w.polls) := by
  refine ⟨?_, ?_, ?_⟩
  · intro resp e hreload hpush herr
    rw [pushLogin_app_error p w resp e hreload hpush herr]
    refine ⟨rfl, ?_, rfl, rfl⟩
    simp [PushLogin.pollStart, World.emit, World.setStorage]
  · intro e hreload
    rw [pushLogin_reload_error p w e hreload]
    exact ⟨rfl, rfl, rfl, rfl⟩
  · intro e hreload hpush
    rw [pushLogin_transport_error p w e hreload hpush]
    refine ⟨rfl, ?_, rfl, rfl⟩
    simp [PushLogin.pollStart, World.emit, World.setStorage]

/-- Witness for C16: the push request is rejected by the server. -/
theorem C16_push_errors_without_retry_witness :
    (plainPush.Login pushRejectedWorld).1 = Outcome.returned (some (Error.other "rejected")) ∧
    (plainPush.Login pushRejectedWorld).2.trace =
      [] ++ [Event.reload (some 1), Event.WebWxPushLogin 7] ∧
    (plainPush.Login pushRejectedWorld).2.bot.uuid = "" ∧
    (plainPush.Login pushRejectedWorld).2.polls = exampleScript [1] [2] [3] [4] :=
  (C16_push_errors_without_retry plainPush pushRejectedWorld rfl).1
    { Err := some (Error.other "rejected"), UUID := "" } (Error.other "rejected") rfl rfl rfl

/-- Counterexample to C17: with `withRetry = true`, the push polling receives a
success whose initialization fails, the fallback scan login receives a second
success whose initialization works; `PushLogin.Login` returns nil and
`HandleLogin` has been invoked twice. -/
theorem C17_counterexample :
    (retryPush.Login initFailsOnceWorld).1 = Outcome.returned none ∧
    handleLoginArgs (retryPush.Login initFailsOnceWorld).2.trace = [[1], [2]] ∧
    (retryPush.Login initFailsOnceWorld).2.trace =
      [Event.reload (some 1), Event.WebWxPushLogin 7, Event.CheckLogin "push-uuid" "1",
        Event.HandleLogin [1], Event.GetLoginUUID, Event.UUIDCallback "scan-uuid",
        Event.CheckLogin "scan-uuid" "0", Event.HandleLogin [2], Event.LoginCallBack [2]] := by
  decide

/-- C17 (amended): in a run of `SacnLogin.Login` or `PushLogin.Login` that
returns nil, the run's events end with a `HandleLogin` call that returned no
error, followed by nothing but the `LoginCallBack` invocation on the same
payload (when that hook fires); no `LoginCallBack` invocation comes before it.
For `SacnLogin.Login`, and for `PushLogin.Login` without `withRetry`, it is the
only `HandleLogin` call of the run.  For `PushLogin.Login` with `withRetry` at
most one `HandleLogin` call precedes it, and that earlier call returned an
error. -/
theorem C17_init_before_success_hook (s : SacnLogin) (p : PushLogin) (w : World) :
    ((s.Login w).1 = Outcome.returned none →
      ∃ a b raw, (s.Login w).2.trace = w.trace ++ a ++ Event.HandleLogin raw :: b ∧
        w.bot.HandleLogin raw = none ∧ (b = [] ∨ b = [Event.LoginCallBack raw]) ∧
        loginCallBackArgs a = [] ∧ handleLoginArgs a = []) ∧
    ((p.Login w).1 = Outcome.returned none →
      ∃ a b raw, (p.Login w).2.trace = w.trace ++ a ++ Event.HandleLogin raw :: b ∧
        w.bot.HandleLogin raw = none ∧ (b = [] ∨ b = [Event.LoginCallBack raw]) ∧
        loginCallBackArgs a = [] ∧
        (p.opt.withRetry = false → handleLoginArgs a = []) ∧
        (handleLoginArgs a).length ≤ 1 ∧
        ∀ r ∈ handleLoginArgs a, w.bot.HandleLogin r ≠ none) := by
  have hb : ∀ (g : Bool) (raw : Raw),
      (if g then [Event.LoginCallBack raw] else []) = [] ∨
        (if g then [Event.LoginCallBack raw] else []) = [Event.LoginCallBack raw] := by
    intro g raw
    cases g
    · exact Or.inl rfl
    · exact Or.inr rfl
  constructor
  · intro h
    obtain ⟨u, a, raw, -, htrace, hinit, hha, hla, -⟩ := scanLogin_success_shape s w h
    refine ⟨Event.GetLoginUUID :: a,
      (if w.bot.LoginCallBack then [Event.LoginCallBack raw] else []), raw, ?_, hinit,
      hb _ raw, ?_, ?_⟩
    · exact htrace
    · rw [← List.singleton_append, loginCallBackArgs_append, hla]; rfl
    · rw [← List.singleton_append, handleLoginArgs_append, hha]; rfl
  · intro h
    cases hreload : w.bot.reload p.storage with
    | some e =>
      rw [pushLogin_reload_error p w e hreload] at h
      cases h
    | none =>
      cases hp : w.bot.Caller.WebWxPushLogin w.bot.WxUin with
      | error e =>
        rw [pushLogin_transport_error p w e hreload hp] at h
        cases h
      | ok resp =>
        cases herr : resp.Err with
        | some e =>
          rw [pushLogin_app_error p w resp e hreload hp herr] at h
          cases h
        | none =>
          have hstart : (p.pollStart w).trace =
              w.trace ++ [Event.reload p.storage, Event.WebWxPushLogin w.bot.WxUin] := by
            simp [PushLogin.pollStart, World.emit, World.setStorage]
          by_cases hfb : p.opt.withRetry = true ∧ ∃ e,
              (p.checkLogin resp.UUID "1" (p.pollStart w)).1 = Outcome.returned (some e)
          · obtain ⟨hretry, e, hfail⟩ := hfb
            rw [pushLogin_fallback p {} w resp e hreload hp herr hretry hfail] at h ⊢
            obtain ⟨evs, hevs, hl, hlen, hne⟩ :=
              pushCheckLogin_failure_shape p resp.UUID "1" (p.pollStart w) e hfail
            obtain ⟨u, a, raw, -, htrace, hinit, hha, hla, -⟩ :=
              scanLogin_success_shape {} (p.checkLogin resp.UUID "1" (p.pollStart w)).2 h
            rw [pushCheckLogin_bot] at hinit
            have hargs : handleLoginArgs ([Event.reload p.storage,
                Event.WebWxPushLogin w.bot.WxUin] ++ (evs ++ Event.GetLoginUUID :: a)) =
                handleLoginArgs evs := by
              have hha' : handleLoginArgs (Event.GetLoginUUID :: a) = [] := by
                rw [← List.singleton_append, handleLoginArgs_append, hha]; rfl
              rw [handleLoginArgs_append, handleLoginArgs_append, hha', List.append_nil]
              rfl
            refine ⟨[Event.reload p.storage, Event.WebWxPushLogin w.bot.WxUin] ++
              (evs ++ Event.GetLoginUUID :: a),
              (if (p.checkLogin resp.UUID "1" (p.pollStart w)).2.bot.LoginCallBack
                then [Event.LoginCallBack raw] else []), raw, ?_, hinit, hb _ raw, ?_, ?_, ?_, ?_⟩
            · rw [htrace, hevs, hstart]; simp
            · have hla' : loginCallBackArgs (Event.GetLoginUUID :: a) = [] := by
                rw [← List.singleton_append, loginCallBackArgs_append, hla]; rfl
              rw [loginCallBackArgs_append, loginCallBackArgs_append, hl, hla']
              rfl
            · intro hno
              rw [hno] at hretry
              cases hretry
            · rw [hargs]; exact hlen
            · rw [hargs]; exact hne
          · have hno : p.opt.withRetry = false ∨ ∀ e,
                (p.checkLogin resp.UUID "1" (p.pollStart w)).1 ≠ Outcome.returned (some e) := by
              cases hr : p.opt.withRetry
              · exact Or.inl rfl
              · exact Or.inr (fun e he => hfb ⟨hr, e, he⟩)
            rw [pushLogin_no_fallback p w resp hreload hp herr hno] at h ⊢
            obtain ⟨a, raw, htrace, hinit, hha, hla⟩ :=
              pushCheckLogin_success_shape p resp.UUID "1" (p.pollStart w) h
            have hargs : handleLoginArgs ([Event.reload p.storage,
                Event.WebWxPushLogin w.bot.WxUin] ++ a) = [] := by
              rw [handleLoginArgs_append, hha]; rfl
            refine ⟨[Event.reload p.storage, Event.WebWxPushLogin w.bot.WxUin] ++ a,
              (if ((p.pollStart w).bot.LoginCallBack && !p.opt.withoutLoginCallback)
                then [Event.LoginCallBack raw] else []), raw,
              ?_, hinit, hb _ raw, ?_, fun _ => hargs, ?_, ?_⟩
            · rw [htrace, hstart]; simp
            · rw [loginCallBackArgs_append, hla]; rfl
            · rw [hargs]; exact Nat.zero_le _
            · rw [hargs]; intro r hr; cases hr

/-- Witness for C17 (amended): a scan login that succeeds at once, and the push
login with fallback whose first initialization fails. -/
theorem C17_init_before_success_hook_witness :
    (∃ a b raw, (SacnLogin.Login {} (sampleWorld [answer LoginCode.StatusSuccess [4]])).2.trace =
        [] ++ a ++ Event.HandleLogin raw :: b ∧
      sampleBot.HandleLogin raw = none ∧ (b = [] ∨ b = [Event.LoginCallBack raw]) ∧
      loginCallBackArgs a = [] ∧ handleLoginArgs a = []) ∧
    (∃ a b raw, (retryPush.Login initFailsOnceWorld).2.trace =
        [] ++ a ++ Event.HandleLogin raw :: b ∧
      initFailsOnceWorld.bot.HandleLogin raw = none ∧ (b = [] ∨ b = [Event.LoginCallBack raw]) ∧
      loginCallBackArgs a = [] ∧
      (retryPush.opt.withRetry = false → handleLoginArgs a = []) ∧
      (handleLoginArgs a).length ≤ 1 ∧
      ∀ r ∈ handleLoginArgs a, initFailsOnceWorld.bot.HandleLogin r ≠ none) :=
  ⟨(C17_init_before_success_hook {} retryPush
      (sampleWorld [answer LoginCode.StatusSuccess [4]])).1 (by decide),
    (C17_init_before_success_hook {} retryPush initFailsOnceWorld).2 (by decide)⟩

/-- C18: the two copies of the polling loop agree.  With tip `"0"` and the
three suppression flags false, `PushLogin.checkLogin` gives the same returned
value and the same final world (bot, unread script, and whole log: the same
`CheckLogin` calls, hook invocations and `HandleLogin` call, in the same order
with the same arguments) as `SacnLogin.checkLogin`. -/
theorem C18_push_loop_equals_scan_loop (s : SacnLogin) (p : PushLogin) (uuid : String)
    (w : World)
    (huuid : p.opt.withoutUUIDCallback = false)
    (hscan : p.opt.withoutScanCallback = false)
    (hlogin : p.opt.withoutLoginCallback = false) :
    p.checkLogin uuid "0" w = s.checkLogin uuid w := by
  rw [pushCheckLogin_full, scanCheckLogin_full, huuid, hscan, hlogin]
  simp

/-- Witness for C18 on `[Waiting, Scanned, Waiting, Success]`. -/
theorem C18_push_loop_equals_scan_loop_witness :
    plainPush.checkLogin "u" "0" (sampleWorld (exampleScript [1] [2] [3] [4])) =
      SacnLogin.checkLogin {} "u" (sampleWorld (exampleScript [1] [2] [3] [4])) :=
  C18_push_loop_equals_scan_loop {} plainPush "u" (sampleWorld (exampleScript [1] [2] [3] [4]))
    rfl rfl rfl

/-- C19: the options of `PushLogin` only affect hook invocations in
`checkLogin`.  Two runs of `PushLogin.checkLogin` on the same world, identifier
and initial tip, under any two option settings (so in particular settings that
differ only in `withoutUUIDCallback`, `withoutScanCallback` and
`withoutLoginCallback`), return the same value, leave the same `bot.uuid` and
the same unread script, issue the same sequence of `CheckLogin` calls (same
identifier and tips) and make the same `HandleLogin` calls. -/
theorem C19_flags_affect_hooks_only (p p' : PushLogin) (uuid tip : String) (w : World) :
    (p.checkLogin uuid tip w).1 = (p'.checkLogin uuid tip w).1 ∧
    (p.checkLogin uuid tip w).2.bot.uuid = (p'.checkLogin uuid tip w).2.bot.uuid ∧
    (p.checkLogin uuid tip w).2.polls = (p'.checkLogin uuid tip w).2.polls ∧
    ∃ evs evs', (p.checkLogin uuid tip w).2.trace = w.trace ++ evs ∧
      (p'.checkLogin uuid tip w).2.trace = w.trace ++ evs' ∧
      checkLoginCalls evs = checkLoginCalls evs' ∧
      handleLoginArgs evs = handleLoginArgs evs' := by
  rw [pushCheckLogin_full p, pushCheckLogin_full p']
  refine ⟨rfl, rfl, rfl, _, _, rfl, rfl, ?_, ?_⟩
  · rw [checkLoginCalls_append, checkLoginCalls_append, checkLoginCalls_uuidEvents,
      checkLoginCalls_uuidEvents]
    exact congrArg _ (checkLoginCalls_loopEvents_flags _ _ _ _ _ _ _ _)
  · rw [handleLoginArgs_append, handleLoginArgs_append, handleLoginArgs_uuidEvents,
      handleLoginArgs_uuidEvents]
    exact congrArg _ (handleLoginArgs_loopEvents_flags _ _ _ _ _ _ _ _)

/-- C20: the scan fallback of `PushLogin` ignores the push suppression flags.
For `PushLogin.Login` with `withRetry = true` whose polling phase fails (the
reload and the push request having succeeded), `Login` is the plain
`SacnLogin.Login` run from the world the polling phase ended in, where
`bot.uuid` was the push identifier.  When `GetLoginUUID` issues `u`: `bot.uuid`
ends as `u`; and whatever the three suppression flags are, the fallback invokes
`UUIDCallback` on `u` if that hook is set, `ScanCallBack` on the payload of
every `StatusScanned` response it reads if that hook is set, and, if
`LoginCallBack` is set and `Login` returns nil, `LoginCallBack` once, on the
payload given to `HandleLogin`. -/
theorem C20_fallback_ignores_suppression (p : PushLogin) (s : SacnLogin) (w : World)
    (resp : PushLoginResponse) (e : Error) (u : String)
    (hretry : p.opt.withRetry = true)
    (hreload : w.bot.reload p.storage = none)
    (hpush : w.bot.Caller.WebWxPushLogin w.bot.WxUin = PushLoginResult.ok resp)
    (herr : resp.Err = none)
    (hfail : (p.checkLogin resp.UUID "1" (p.pollStart w)).1 = Outcome.returned (some e))
    (hu : w.bot.Caller.GetLoginUUID = UUIDResult.ok u) :
    p.Login w = s.Login (p.checkLogin resp.UUID "1" (p.pollStart w)).2 ∧
    (p.checkLogin resp.UUID "1" (p.pollStart w)).2.bot.uuid = resp.UUID ∧
    (p.Login w).2.bot.uuid = u ∧
    ∃ evs, (p.Login w).2.trace =
        (p.checkLogin resp.UUID "1" (p.pollStart w)).2.trace ++ Event.GetLoginUUID :: evs ∧
      (w.bot.UUIDCallback = true → uuidCallbackArgs evs = [u]) ∧
      (w.bot.ScanCallBack = true → scanCallBackArgs evs =
        scannedRaws (loopRead (p.checkLogin resp.UUID "1" (p.pollStart w)).2.polls)) ∧
      (w.bot.LoginCallBack = true → (p.Login w).1 = Outcome.returned none →
        ∃ raw, loginCallBackArgs evs = [raw] ∧ handleLoginArgs evs = [raw]) := by
  have hbot := pushCheckLogin_bot p resp.UUID "1" (p.pollStart w)
  rw [pushLogin_fallback p s w resp e hreload hpush herr hretry hfail]
  generalize (p.checkLogin resp.UUID "1" (p.pollStart w)).2 = w3 at hbot ⊢
  have hu3 : w3.bot.Caller.GetLoginUUID = UUIDResult.ok u := by rw [hbot]; exact hu
  have hU : w3.bot.UUIDCallback = w.bot.UUIDCallback := by rw [hbot]; rfl
  have hS : w3.bot.ScanCallBack = w.bot.ScanCallBack := by rw [hbot]; rfl
  have hL : w3.bot.LoginCallBack = w.bot.LoginCallBack := by rw [hbot]; rfl
  refine ⟨rfl, by rw [hbot]; rfl, ?_, ?_⟩
  · rw [scanLogin_ok s w3 u hu3, scanCheckLogin_full]
    rfl
  · rw [scanLogin_ok s w3 u hu3]
    refine ⟨uuidEvents w3.bot.UUIDCallback u ++
      loopEvents w3.bot w3.bot.ScanCallBack w3.bot.LoginCallBack u "0" w3.polls, ?_, ?_, ?_, ?_⟩
    · rw [scanCheckLogin_trace]
      simp [World.emit]
    · intro hset
      rw [uuidCallbackArgs_append, uuidCallbackArgs_uuidEvents,
        uuidCallbackArgs_of_isPollEvent _ (isPollEvent_loopEvents _ _ _ _ _ _), hU, hset]
      rfl
    · intro hset
      rw [scanCallBackArgs_append, scanCallBackArgs_uuidEvents, hS, hset,
        scanCallBackArgs_loopEvents_true]
      rfl
    · intro hset hnil
      rw [scanCheckLogin_full] at hnil
      obtain ⟨a, raw, hshape, -, hha, hla, -, -⟩ :=
        loopEvents_of_success (w3.emit Event.GetLoginUUID).bot w3.bot.ScanCallBack
          w3.bot.LoginCallBack u "0" w3.polls hnil
      have hshape' : loopEvents w3.bot w3.bot.ScanCallBack w3.bot.LoginCallBack u "0" w3.polls =
          a ++ [Event.HandleLogin raw, Event.LoginCallBack raw] := by
        rw [hL, hset] at hshape ⊢
        exact hshape
      refine ⟨raw, ?_, ?_⟩
      · rw [loginCallBackArgs_append, loginCallBackArgs_uuidEvents, hshape',
          loginCallBackArgs_append, hla]
        rfl
      · rw [handleLoginArgs_append, handleLoginArgs_uuidEvents, hshape',
          handleLoginArgs_append, hha]
        rfl

/-- Witness for C20: every push hook is suppressed, the push polling times
out, and the fallback scan login fires all three hooks. -/
theorem C20_fallback_ignores_suppression_witness :
    (silentRetryPush.Login (sampleWorld (answer LoginCode.StatusTimeout [0] ::
        exampleScript [1] [2] [3] [4]))).2.bot.uuid = "scan-uuid" ∧
    (silentRetryPush.Login (sampleWorld (answer LoginCode.StatusTimeout [0] ::
        exampleScript [1] [2] [3] [4]))).2.trace =
      [Event.reload (some 1), Event.WebWxPushLogin 7, Event.CheckLogin "push-uuid" "1",
        Event.GetLoginUUID, Event.UUIDCallback "scan-uuid",
        Event.CheckLogin "scan-uuid" "0", Event.CheckLogin "scan-uuid" "0",
        Event.ScanCallBack [2], Event.CheckLogin "scan-uuid" "0",
        Event.CheckLogin "scan-uuid" "0", Event.HandleLogin [4], Event.LoginCallBack [4]] :=
  ⟨(C20_fallback_ignores_suppression silentRetryPush {}
      (sampleWorld (answer LoginCode.StatusTimeout [0] :: exampleScript [1] [2] [3] [4]))
      { Err := none, UUID := "push-uuid" } Error.ErrLoginTimeout "scan-uuid"
      rfl rfl rfl rfl rfl rfl).2.2.1, by decide⟩

end OpenWechat
